import Mathlib

/-!
# Authentication helpers of the admin dashboard and of the StreamZone site

A shallow embedding of `Admin_dashboard/auth.js` and `js/auth.js`.

* JavaScript strings are sequences of UTF-16 code units (`JSString`); `length`,
  `charCodeAt`, `trim` and the regular expressions all work on code units.
* `localStorage` is a record of decoded slots, one per key the module uses.
* What the browser supplies (the clock, fresh identifiers, `toLowerCase`,
  `crypto.subtle`) is an explicit argument of the operation that consumes it.
-/

/-- A JavaScript string: its UTF-16 code units, in order. -/
abbrev JSString := List Nat

/-- The code units of a Lean string literal (used to write inputs readably);
characters outside the basic plane become a surrogate pair. -/
def js (s : String) : JSString :=
  s.toList.flatMap fun c =>
    if c.toNat < 65536 then [c.toNat]
    else [55296 + (c.toNat - 65536) / 1024, 56320 + (c.toNat - 65536) % 1024]

/-- ECMAScript WhiteSpace and LineTerminator code units: the set stripped by
`String.prototype.trim` and matched by the regular expression class `\s`. -/
def isWhiteSpace (c : Nat) : Bool :=
  c = 9 || c = 10 || c = 11 || c = 12 || c = 13 || c = 32 || c = 160 || c = 5760
    || (8192 ≤ c && c ≤ 8202) || c = 8232 || c = 8233 || c = 8239 || c = 8287
    || c = 12288 || c = 65279

/-- `String.prototype.trim`. -/
def trim (s : JSString) : JSString :=
  ((s.dropWhile isWhiteSpace).reverse.dropWhile isWhiteSpace).reverse

/-- `String.prototype.padStart(targetLength, padChar)` for a one-unit pad string. -/
def padStart (targetLength : Nat) (padChar : Nat) (s : JSString) : JSString :=
  List.replicate (targetLength - s.length) padChar ++ s

/-- The code unit of a hexadecimal digit `d < 16`, lower case as `toString(16)` prints it. -/
def hexDigit (d : Nat) : Nat := if d < 10 then 48 + d else 87 + d

/-- Digits of `n` in base 16, most significant first, pushed in front of `acc`;
`fuel` bounds the number of digits produced. -/
def toString16Aux : Nat → Nat → JSString → JSString
  | 0, _, acc => acc
  | fuel + 1, n, acc =>
    if n / 16 = 0 then hexDigit (n % 16) :: acc
    else toString16Aux fuel (n / 16) (hexDigit (n % 16) :: acc)

/-- `Number.prototype.toString(16)` on a non-negative integer. -/
def toString16 (n : Nat) : JSString := toString16Aux (n + 1) n []

/-- Predicate: the code unit is one of `0-9a-f`. -/
def isLowerHex (c : Nat) : Bool := (48 ≤ c && c ≤ 57) || (97 ≤ c && c ≤ 102)

/-- ECMAScript `ToInt32`: wrap an integer to the signed 32-bit range. -/
def toInt32 (x : Int) : Int := (x + 2147483648) % 4294967296 - 2147483648

/-- The operator `x << k` on integers: both the operand and the result are wrapped to 32 bits. -/
def shiftLeft (x : Int) (k : Nat) : Int := toInt32 (toInt32 x * 2 ^ k)

/-- What the browser supplies to the admin module besides storage. -/
structure Env where
  /-- `String.prototype.toLowerCase`. -/
  toLowerCase : JSString → JSString
  /-- `crypto.subtle.digest('SHA-256', ·)` applied to the encoded password: `none` when
  `window.crypto.subtle` is missing (non-secure context); when present, the call yields the
  bytes of the digest, or `none` when it throws or rejects. -/
  subtleDigest : Option (JSString → Option (List Nat))

/-- Lower-casing of the letters `A-Z`, every other code unit unchanged: what
`toLowerCase` does on ASCII strings. Used for closed examples. -/
def asciiToLowerCase (s : JSString) : JSString :=
  s.map fun c => if 65 ≤ c ∧ c ≤ 90 then c + 32 else c

/-- A browser in a non-secure context (`file://`): no `crypto.subtle`. -/
def fileEnv : Env := { toLowerCase := asciiToLowerCase, subtleDigest := none }

namespace AdminDashboard

/-- One iteration of the fallback loop (lines 32-34):
`hash = ((hash << 5) - hash) + char; hash = hash & hash`. -/
def hashStep (hash : Int) (char : Nat) : Int :=
  toInt32 ((shiftLeft hash 5 - hash) + (char : Int))

/-- The loop of lines 30-35, over the code units of the password. -/
def fallbackLoop (password : JSString) : Int := password.foldl hashStep 0

/-- Lines 30-36: the fallback digest, `Math.abs(hash).toString(16).padStart(64, '0')`. -/
def fallbackHash (password : JSString) : JSString :=
  padStart 64 48 (toString16 (fallbackLoop password).natAbs)

/-- Line 21: `hashArray.map(b => b.toString(16).padStart(2, '0')).join('')`. -/
def hashHex (hashArray : List Nat) : JSString :=
  (hashArray.map fun b => padStart 2 48 (toString16 b)).flatten

/-- `hashPassword` (lines 13-37): SHA-256 through `crypto.subtle` when it is available
and does not fail, the 32-bit rolling checksum otherwise. -/
def hashPassword (env : Env) (password : JSString) : JSString :=
  match env.subtleDigest with
  | some digest =>
    match digest password with
    | some hashArray => hashHex hashArray
    | none => fallbackHash password
  | none => fallbackHash password

/-- An admin account as `signup` writes it (lines 106-112). -/
structure Admin where
  id : JSString
  fullName : JSString
  email : JSString
  passwordHash : JSString
  /-- `new Date().toISOString()`, kept as the clock reading in milliseconds. -/
  createdAt : Nat
deriving DecidableEq

/-- The admin session record as `login` writes it (lines 154-158). -/
structure Session where
  sessionToken : JSString
  adminId : JSString
  loginTime : Nat
deriving DecidableEq

/-- The value stored under `adminCredentials`, decoded: the array of accounts, or a blob
whose reading raises (text that `JSON.parse` rejects, or a value that cannot be walked as
an array of account records). -/
inductive AdminsBlob where
  | malformed
  | accounts (admins : List Admin)
deriving DecidableEq

/-- The two `localStorage` slots of the admin module; `none` is a missing (or empty) item. -/
structure Storage where
  admins : Option AdminsBlob
  session : Option Session
deriving DecidableEq

/-- A fault raised inside a `try` block. -/
inductive Fault where
  | error
deriving DecidableEq

/-- The sanitized account returned by `login` (lines 164-168). -/
structure AdminInfo where
  id : JSString
  fullName : JSString
  email : JSString
deriving DecidableEq

/-- The object `signup` and `login` resolve to. -/
structure Result where
  success : Bool
  message : String
  admin : Option AdminInfo
deriving DecidableEq

/-- `getAdmins` (lines 45-48): the parsed array, `[]` when the item is missing; reading a
blob that is no array of accounts raises. -/
def getAdmins (st : Storage) : Except Fault (List Admin) :=
  match st.admins with
  | none => .ok []
  | some .malformed => .error .error
  | some (.accounts admins) => .ok admins

/-- `saveAdmins` (lines 51-53). -/
def saveAdmins (st : Storage) (admins : List Admin) : Storage :=
  { st with admins := some (.accounts admins) }

/-- `getSession` (lines 56-59). -/
def getSession (st : Storage) : Option Session := st.session

/-- `saveSession` (lines 62-64). -/
def saveSession (st : Storage) (session : Session) : Storage :=
  { st with session := some session }

/-- `clearSession` (lines 67-69). -/
def clearSession (st : Storage) : Storage := { st with session := none }

end AdminDashboard

/-- One element of an anchored pattern: a character class, or a class under `+`. -/
inductive PatItem where
  | one (cls : Nat → Bool)
  | many1 (cls : Nat → Bool)

/-- Does the whole string match the sequence of pattern items (`^ ... $`)? A class under
`+` consumes one unit and then either stops or goes on. -/
def matchItems : List PatItem → JSString → Bool
  | [], [] => true
  | [], _ :: _ => false
  | _ :: _, [] => false
  | .one cls :: rest, c :: s => cls c && matchItems rest s
  | .many1 cls :: rest, c :: s =>
    cls c && (matchItems rest s || matchItems (.many1 cls :: rest) s)

/-- The class `[^\s@]`. -/
def notSpaceAt (c : Nat) : Bool := !(isWhiteSpace c) && c != 64

/-- The pattern `/^[^\s@]+@[^\s@]+\.[^\s@]+$/` of both modules. -/
def emailRegex : List PatItem :=
  [.many1 notSpaceAt, .one (· == 64), .many1 notSpaceAt, .one (· == 46), .many1 notSpaceAt]

namespace AdminDashboard

/-- `signup` (lines 78-123). `newId` is what `generateId()` returns and `now` the clock
reading behind `createdAt`. Returns the result and the storage left behind. -/
def signup (env : Env) (st : Storage) (newId : JSString) (now : Nat)
    (fullName email password : JSString) : Result × Storage :=
  if fullName = [] ∨ email = [] ∨ password = [] then
    ({ success := false, message := "All fields are required", admin := none }, st)
  else if ¬ matchItems emailRegex email then
    ({ success := false, message := "Invalid email format", admin := none }, st)
  else if password.length < 6 then
    ({ success := false, message := "Password must be at least 6 characters", admin := none }, st)
  else
    match getAdmins st with
    | .error _ =>
      ({ success := false, message := "An error occurred during signup", admin := none }, st)
    | .ok admins =>
      if admins.any (fun admin => admin.email = email) then
        ({ success := false, message := "Email already registered", admin := none }, st)
      else
        let passwordHash := hashPassword env password
        let newAdmin : Admin :=
          { id := newId
            fullName := trim fullName
            email := trim (env.toLowerCase email)
            passwordHash := passwordHash
            createdAt := now }
        ({ success := true, message := "Account created successfully!", admin := none },
          saveAdmins st (admins ++ [newAdmin]))

/-- `login` (lines 131-174). `newToken` is what `generateId()` returns and `now` the clock
reading behind `loginTime`. -/
def login (env : Env) (st : Storage) (newToken : JSString) (now : Nat)
    (email password : JSString) : Result × Storage :=
  if email = [] ∨ password = [] then
    ({ success := false, message := "Email and password are required", admin := none }, st)
  else
    match getAdmins st with
    | .error _ =>
      ({ success := false, message := "An error occurred during login", admin := none }, st)
    | .ok admins =>
      match admins.find? (fun a => a.email = trim (env.toLowerCase email)) with
      | none => ({ success := false, message := "Invalid email or password", admin := none }, st)
      | some admin =>
        let passwordHash := hashPassword env password
        if passwordHash ≠ admin.passwordHash then
          ({ success := false, message := "Invalid email or password", admin := none }, st)
        else
          let session : Session :=
            { sessionToken := newToken, adminId := admin.id, loginTime := now }
          ({ success := true, message := "Login successful!",
             admin := some { id := admin.id, fullName := admin.fullName, email := admin.email } },
            saveSession st session)

end AdminDashboard

/-- A JavaScript value as far as `isAuthenticated` can return one. -/
inductive JSVal where
  | bool (b : Bool)
  | str (s : JSString)
deriving DecidableEq

/-- ECMAScript `ToBoolean`: a string is truthy iff it is not empty. -/
def JSVal.truthy : JSVal → Bool
  | .bool b => b
  | .str s => !s.isEmpty

namespace AdminDashboard

/-- `logout` (lines 179-182), without the redirect. -/
def logout (st : Storage) : Storage := clearSession st

/-- `isAuthenticated` (lines 188-191):
`session !== null && session.sessionToken && session.adminId`, the value of the
first falsy operand or else of the last one. -/
def isAuthenticated (st : Storage) : JSVal :=
  match getSession st with
  | none => .bool false
  | some session =>
    if (JSVal.str session.sessionToken).truthy then .str session.adminId
    else .str session.sessionToken

end AdminDashboard

/-- The user record handed to `SessionManager.login`, a JSON value the module stores
and never inspects. -/
inductive UserData where
  | null
  | str (s : JSString)
  | record (fields : List (String × JSString))
deriving DecidableEq

namespace SessionManager

/-- The session record as `SessionManager.login` writes it (lines 10-14); the two
timestamps are kept as clock readings in milliseconds. -/
structure Session where
  user : UserData
  loginTime : Nat
  expiresAt : Nat
deriving DecidableEq

/-- The two `localStorage` slots of the StreamZone module (`streamzone_user`,
`streamzone_session`); `none` is a missing item. -/
structure Storage where
  user : Option UserData
  session : Option Session
deriving DecidableEq

/-- `SessionManager.login` (lines 9-17). `date` is the reading of `new Date()` and
`dateNow` that of `Date.now()`. -/
def login (st : Storage) (date dateNow : Nat) (userData : UserData) : Storage :=
  let session : Session :=
    { user := userData
      loginTime := date
      expiresAt := dateNow + 24 * 60 * 60 * 1000 }
  let st := { st with user := some userData }
  { st with session := some session }

/-- `SessionManager.logout` (lines 20-23). -/
def logout (st : Storage) : Storage :=
  let st := { st with user := none }
  { st with session := none }

/-- `SessionManager.getUser` (lines 41-44). -/
def getUser (st : Storage) : Option UserData := st.user

/-- `SessionManager.getSession` (lines 47-50). -/
def getSession (st : Storage) : Option Session := st.session

/-- `SessionManager.isLoggedIn` (lines 26-38), called when the clock reads `now`:
the answer and the storage left behind. -/
def isLoggedIn (st : Storage) (now : Nat) : Bool × Storage :=
  match getSession st with
  | none => (false, st)
  | some session =>
    let expiresAt := session.expiresAt
    if now > expiresAt then (false, logout st)
    else (true, st)

end SessionManager

namespace Validator

/-- The object `validatePassword` returns. -/
structure Verdict where
  valid : Bool
  message : String
deriving DecidableEq

/-- `Validator.validateEmail` (lines 56-59). -/
def validateEmail (email : JSString) : Bool := matchItems emailRegex email

/-- The class `[A-Z]`. -/
def isUpper (c : Nat) : Bool := 65 ≤ c && c ≤ 90

/-- The class `[0-9]`. -/
def isDigit (c : Nat) : Bool := 48 ≤ c && c ≤ 57

/-- `Validator.validatePassword` (lines 62-73); an unanchored one-class pattern tests
whether some code unit is in the class. -/
def validatePassword (password : JSString) : Verdict :=
  if password.length < 8 then
    { valid := false, message := "Password must be at least 8 characters long" }
  else if ¬ password.any isUpper then
    { valid := false, message := "Password must contain at least one uppercase letter" }
  else if ¬ password.any isDigit then
    { valid := false, message := "Password must contain at least one number" }
  else
    { valid := true, message := "Password is strong" }

/-- `Validator.passwordsMatch` (lines 76-78). -/
def passwordsMatch (password confirmPassword : JSString) : Bool :=
  password = confirmPassword

end Validator

/-- ECMAScript `ToBoolean` on a user record: `null` and the empty string are falsy. -/
def UserData.truthy : UserData → Bool
  | .null => false
  | .str s => !s.isEmpty
  | .record _ => true

/-- Truthiness of `session[key]` for a stored StreamZone session. The object literal of
`SessionManager.login` (lines 10-14) has the properties `user`, `loginTime` and `expiresAt`
(the last two are non-empty date strings); every other property reads as `undefined`. -/
def SessionManager.Session.hasTruthy (s : SessionManager.Session) (key : String) : Bool :=
  if key = "user" then s.user.truthy
  else if key = "loginTime" ∨ key = "expiresAt" then true
  else false

namespace AdminDashboard

/-- The arguments of one `signup` call, with the identifier and clock reading it consumes. -/
structure SignupCall where
  newId : JSString
  now : Nat
  fullName : JSString
  email : JSString
  password : JSString

/-- A finite sequence of `signup` calls, each starting from the storage the previous one
left. -/
def runSignups (env : Env) (st : Storage) : List SignupCall → Storage
  | [] => st
  | c :: cs => runSignups env (signup env st c.newId c.now c.fullName c.email c.password).2 cs

/-- The `email` fields of the stored accounts, in order. -/
def storedEmails (st : Storage) : List JSString :=
  match getAdmins st with
  | .ok admins => admins.map (·.email)
  | .error _ => []

end AdminDashboard

namespace AdminDashboard

/-- The object `getCurrentAdmin` returns (lines 206-211). -/
structure AdminDetails where
  id : JSString
  fullName : JSString
  email : JSString
  createdAt : Nat
deriving DecidableEq

/-- `getCurrentAdmin` (lines 197-212): `none` is `null`; the function has no `try`, so a
fault of `getAdmins` leaves it. -/
def getCurrentAdmin (st : Storage) : Except Fault (Option AdminDetails) :=
  match getSession st with
  | none => .ok none
  | some session =>
    match getAdmins st with
    | .error e => .error e
    | .ok admins =>
      match admins.find? (fun a => a.id = session.adminId) with
      | none => .ok none
      | some admin =>
        .ok (some { id := admin.id, fullName := admin.fullName, email := admin.email,
                    createdAt := admin.createdAt })

end AdminDashboard

/-! ## The specification's wording, for comparison with the code -/

/-- The fallback digest as the specification words it: from `hash = 0`, for each code unit
`hash = (hash*31 - hash) + charCode` wrapped to a signed 32-bit integer, then the absolute
value in hexadecimal, left-padded with `'0'` to 64 characters. -/
def specFallbackHash (p : JSString) : JSString :=
  padStart 64 48
    (toString16 (p.foldl (fun (hash : Int) (c : Nat) => toInt32 ((hash * 31 - hash) + (c : Int))) 0).natAbs)

/-- The polynomial `c_0 * 31^(n-1) + c_1 * 31^(n-2) + ... + c_(n-1)` of the code units
`c_0 .. c_(n-1)`, over the integers (no wrapping). -/
def polySum : List Nat → Int
  | [] => 0
  | c :: cs => (c : Int) * 31 ^ cs.length + polySum cs

/-- The value of a hexadecimal digit given by its code unit (`0-9`, `a-f`). -/
def hexValue (c : Nat) : Nat := if c < 58 then c - 48 else c - 87

/-- The number a string of hexadecimal digits denotes, most significant digit first. -/
def ofHex (s : JSString) : Nat := s.foldl (fun acc c => acc * 16 + hexValue c) 0

/-! ## Hexadecimal rendering -/

theorem hexDigit_isLowerHex (d : Nat) (h : d < 16) : isLowerHex (hexDigit d) = true := by
  unfold isLowerHex hexDigit
  split <;> simp <;> omega

theorem toString16Aux_length (fuel : Nat) :
    ∀ (n k : Nat) (acc : JSString), n < fuel → 1 ≤ k → n < 16 ^ k →
      acc.length + 1 ≤ (toString16Aux fuel n acc).length ∧
      (toString16Aux fuel n acc).length ≤ k + acc.length := by
  induction fuel with
  | zero => intro n k acc h; omega
  | succ fuel ih =>
    intro n k acc hfuel hk hn
    unfold toString16Aux
    split
    · simp; omega
    · rename_i hdiv
      have hk2 : 2 ≤ k := by
        rcases Nat.lt_or_ge k 2 with h | h
        · have : k = 1 := by omega
          subst this
          omega
        · exact h
      have hpow : 16 ^ k = 16 * 16 ^ (k - 1) := by
        rw [← pow_succ']
        congr 1
        omega
      have := ih (n / 16) (k - 1) (hexDigit (n % 16) :: acc) (by omega) (by omega) (by omega)
      simp only [List.length_cons] at this
      omega

theorem toString16Aux_mem (fuel : Nat) :
    ∀ (n : Nat) (acc : JSString), (∀ c ∈ acc, isLowerHex c = true) →
      ∀ c ∈ toString16Aux fuel n acc, isLowerHex c = true := by
  induction fuel with
  | zero => intro n acc h; simpa [toString16Aux] using h
  | succ fuel ih =>
    intro n acc hacc
    have hcons : ∀ c ∈ hexDigit (n % 16) :: acc, isLowerHex c = true := by
      intro c hc
      rcases List.mem_cons.mp hc with h | h
      · subst h
        exact hexDigit_isLowerHex _ (Nat.mod_lt _ (by decide))
      · exact hacc c h
    unfold toString16Aux
    split
    · exact hcons
    · exact ih _ _ hcons

theorem toString16_length_le (n k : Nat) (hk : 1 ≤ k) (hn : n < 16 ^ k) :
    1 ≤ (toString16 n).length ∧ (toString16 n).length ≤ k := by
  have := toString16Aux_length (n + 1) n k [] (by omega) hk hn
  simpa [toString16] using this

theorem toString16_mem (n : Nat) : ∀ c ∈ toString16 n, isLowerHex c = true :=
  toString16Aux_mem (n + 1) n [] (by simp)

theorem padStart_length (t pad : Nat) (s : JSString) (h : s.length ≤ t) :
    (padStart t pad s).length = t := by
  simp [padStart]
  omega

theorem padStart_mem (t pad : Nat) (s : JSString) (P : Nat → Prop) (hpad : P pad)
    (hs : ∀ c ∈ s, P c) : ∀ c ∈ padStart t pad s, P c := by
  intro c hc
  simp only [padStart, List.mem_append, List.mem_replicate] at hc
  rcases hc with ⟨_, rfl⟩ | h
  · exact hpad
  · exact hs c h

/-! ## 32-bit wrapping -/

theorem toInt32_range (x : Int) : -2147483648 ≤ toInt32 x ∧ toInt32 x < 2147483648 := by
  unfold toInt32
  omega

theorem toInt32_natAbs_le (x : Int) : (toInt32 x).natAbs ≤ 2147483648 := by
  have := toInt32_range x
  omega

theorem hashStep_eq (hash : Int) (char : Nat) :
    AdminDashboard.hashStep hash char = toInt32 (hash * 31 + (char : Int)) := by
  unfold AdminDashboard.hashStep shiftLeft toInt32
  norm_num
  omega

theorem hashStep_eq_sub (hash : Int) (char : Nat) :
    AdminDashboard.hashStep hash char = toInt32 ((hash * 32 - hash) + (char : Int)) := by
  rw [hashStep_eq]
  congr 1
  ring

theorem fallbackLoop_range (password : JSString) :
    (AdminDashboard.fallbackLoop password).natAbs ≤ 2147483648 := by
  unfold AdminDashboard.fallbackLoop
  induction password using List.reverseRecOn with
  | nil => simp
  | append_singleton l c _ =>
    rw [List.foldl_append]
    exact toInt32_natAbs_le _

/-! ## The password hasher -/

theorem hashHex_length (hashArray : List Nat) (hb : ∀ b ∈ hashArray, b < 256) :
    (AdminDashboard.hashHex hashArray).length = 2 * hashArray.length := by
  unfold AdminDashboard.hashHex
  induction hashArray with
  | nil => simp
  | cons b bs ih =>
    have h1 := toString16_length_le b 2 (by decide) (by have := hb b (by simp); omega)
    have h2 := padStart_length 2 48 (toString16 b) h1.2
    have h3 := ih (fun x hx => hb x (List.mem_cons_of_mem _ hx))
    simp only [List.map_cons, List.flatten_cons, List.length_append, List.length_cons, h2, h3]
    omega

theorem hashHex_mem (hashArray : List Nat) :
    ∀ c ∈ AdminDashboard.hashHex hashArray, isLowerHex c = true := by
  intro c hc
  simp only [AdminDashboard.hashHex, List.mem_flatten, List.mem_map] at hc
  obtain ⟨l, ⟨b, _, rfl⟩, hcl⟩ := hc
  exact padStart_mem 2 48 _ (fun c => isLowerHex c = true) (by decide) (toString16_mem b) c hcl

theorem fallbackHash_length (password : JSString) :
    (AdminDashboard.fallbackHash password).length = 64 := by
  unfold AdminDashboard.fallbackHash
  apply padStart_length
  have h := fallbackLoop_range password
  have := (toString16_length_le _ 8 (by decide)
    (by have : (16 : Nat) ^ 8 = 4294967296 := by norm_num
        omega : (AdminDashboard.fallbackLoop password).natAbs < 16 ^ 8)).2
  omega

theorem fallbackHash_mem (password : JSString) :
    ∀ c ∈ AdminDashboard.fallbackHash password, isLowerHex c = true :=
  padStart_mem 64 48 _ (fun c => isLowerHex c = true) (by decide) (toString16_mem _)

/-- C5: `hashPassword` is total and its result has exactly 64 code units, each one of
`0-9a-f`, on both paths: on the primary path whenever the digest has 32 bytes (values below
256), and on the fallback path (no `crypto.subtle`, or a failing digest call) for every
password. -/
theorem hashPassword_hex64 (env : Env) (password : JSString) :
    (∀ digest hashArray, env.subtleDigest = some digest → digest password = some hashArray →
        hashArray.length = 32 → (∀ b ∈ hashArray, b < 256) →
        AdminDashboard.hashPassword env password = AdminDashboard.hashHex hashArray ∧
        (AdminDashboard.hashPassword env password).length = 64 ∧
        ∀ c ∈ AdminDashboard.hashPassword env password, isLowerHex c = true) ∧
    ((env.subtleDigest = none ∨ ∃ digest, env.subtleDigest = some digest ∧ digest password = none) →
        AdminDashboard.hashPassword env password = AdminDashboard.fallbackHash password ∧
        (AdminDashboard.hashPassword env password).length = 64 ∧
        ∀ c ∈ AdminDashboard.hashPassword env password, isLowerHex c = true) := by
  constructor
  · intro digest hashArray hd hp hlen hb
    have heq : AdminDashboard.hashPassword env password = AdminDashboard.hashHex hashArray := by
      simp [AdminDashboard.hashPassword, hd, hp]
    refine ⟨heq, ?_, ?_⟩
    · rw [heq, hashHex_length _ hb, hlen]
    · rw [heq]
      exact hashHex_mem _
  · intro h
    have heq : AdminDashboard.hashPassword env password = AdminDashboard.fallbackHash password := by
      rcases h with h | ⟨digest, hd, hp⟩
      · simp [AdminDashboard.hashPassword, h]
      · simp [AdminDashboard.hashPassword, hd, hp]
    refine ⟨heq, ?_, ?_⟩
    · rw [heq]
      exact fallbackHash_length _
    · rw [heq]
      exact fallbackHash_mem _

/-- Witness for C5: a browser whose digest call yields 32 bytes `0xab` on the password
`secret`, and the same password when the digest call fails. -/
theorem hashPassword_hex64_witness :
    ((AdminDashboard.hashPassword
        { toLowerCase := asciiToLowerCase, subtleDigest := some fun _ => some (List.replicate 32 171) }
        (js "secret")).length = 64) ∧
    ((AdminDashboard.hashPassword fileEnv (js "secret")).length = 64) :=
  ⟨((hashPassword_hex64
        { toLowerCase := asciiToLowerCase, subtleDigest := some fun _ => some (List.replicate 32 171) }
        (js "secret")).1 (fun _ => some (List.replicate 32 171)) (List.replicate 32 171) rfl rfl
        (by decide) (by decide)).2.1,
   ((hashPassword_hex64 fileEnv (js "secret")).2 (Or.inl rfl)).2.1⟩

/-- C6 (as stated, refuted): on the password `ab` the code's fallback digest differs from
the digest computed with the step `hash = (hash*31 - hash) + charCode`. -/
theorem fallbackHash_ne_specFallbackHash :
    AdminDashboard.fallbackHash (js "ab") ≠ specFallbackHash (js "ab") := by
  decide

/-- C6 (amended): for every password the fallback digest is obtained from `hash = 0` by the
step `hash = (hash*32 - hash) + charCode` (that is `hash*31 + charCode`) wrapped to a signed
32-bit integer, then the absolute value in hexadecimal left-padded with `'0'` to 64. -/
theorem fallbackHash_eq_wrapped_fold (p : JSString) :
    AdminDashboard.fallbackHash p =
      padStart 64 48
        (toString16 (p.foldl (fun (hash : Int) (c : Nat) => toInt32 ((hash * 32 - hash) + (c : Int))) 0).natAbs) ∧
    AdminDashboard.fallbackHash p =
      padStart 64 48
        (toString16 (p.foldl (fun (hash : Int) (c : Nat) => toInt32 (hash * 31 + (c : Int))) 0).natAbs) := by
  have h1 : AdminDashboard.hashStep = fun (hash : Int) (c : Nat) => toInt32 ((hash * 32 - hash) + (c : Int)) := by
    funext hash c
    exact hashStep_eq_sub hash c
  have h2 : AdminDashboard.hashStep = fun (hash : Int) (c : Nat) => toInt32 (hash * 31 + (c : Int)) := by
    funext hash c
    exact hashStep_eq hash c
  constructor
  · simp only [AdminDashboard.fallbackHash, AdminDashboard.fallbackLoop, h1]
  · simp only [AdminDashboard.fallbackHash, AdminDashboard.fallbackLoop, h2]

/-! ## The validator -/

/-- C7: `validatePassword(s).valid` holds exactly when `s` has at least 8 code units, one of
them in `A-Z` and one in `0-9`; an invalid password gets the message of the first failing
rule in the order length, uppercase, digit; the two examples of the specification. -/
theorem validatePassword_spec (s : JSString) :
    ((Validator.validatePassword s).valid = true ↔
      8 ≤ s.length ∧ (∃ c ∈ s, 65 ≤ c ∧ c ≤ 90) ∧ (∃ c ∈ s, 48 ≤ c ∧ c ≤ 57)) ∧
    (s.length < 8 → Validator.validatePassword s =
      { valid := false, message := "Password must be at least 8 characters long" }) ∧
    (8 ≤ s.length → (¬ ∃ c ∈ s, 65 ≤ c ∧ c ≤ 90) → Validator.validatePassword s =
      { valid := false, message := "Password must contain at least one uppercase letter" }) ∧
    (8 ≤ s.length → (∃ c ∈ s, 65 ≤ c ∧ c ≤ 90) → (¬ ∃ c ∈ s, 48 ≤ c ∧ c ≤ 57) →
      Validator.validatePassword s =
        { valid := false, message := "Password must contain at least one number" }) ∧
    Validator.validatePassword (js "abc") =
      { valid := false, message := "Password must be at least 8 characters long" } ∧
    (Validator.validatePassword (js "Abcdefg1")).valid = true := by
  have hU : s.any Validator.isUpper = true ↔ ∃ c ∈ s, 65 ≤ c ∧ c ≤ 90 := by
    simp [List.any_eq_true, Validator.isUpper]
  have hD : s.any Validator.isDigit = true ↔ ∃ c ∈ s, 48 ≤ c ∧ c ≤ 57 := by
    simp [List.any_eq_true, Validator.isDigit]
  refine ⟨?_, ?_, ?_, ?_, by decide, by decide⟩
  · unfold Validator.validatePassword
    by_cases h1 : s.length < 8
    · simp only [h1, if_true]
      constructor
      · intro h; cases h
      · intro h; omega
    · by_cases h2 : s.any Validator.isUpper = true
      · by_cases h3 : s.any Validator.isDigit = true
        · simp only [h1, h2, h3, if_false, not_true_eq_false, true_iff]
          exact ⟨by omega, hU.mp h2, hD.mp h3⟩
        · simp only [h1, h2, h3, if_false, if_true, not_true_eq_false, not_false_eq_true]
          constructor
          · intro h; cases h
          · intro h; exact absurd (hD.mpr h.2.2) h3
      · simp only [h1, h2, if_false, if_true, not_false_eq_true]
        constructor
        · intro h; cases h
        · intro h; exact absurd (hU.mpr h.2.1) h2
  · intro h1
    simp [Validator.validatePassword, h1]
  · intro h1 h2
    have h2' : ¬ s.any Validator.isUpper = true := fun h => h2 (hU.mp h)
    have h1' : ¬ s.length < 8 := by omega
    simp [Validator.validatePassword, h1', h2']
  · intro h1 h2 h3
    have h2' : s.any Validator.isUpper = true := hU.mpr h2
    have h3' : ¬ s.any Validator.isDigit = true := fun h => h3 (hD.mp h)
    have h1' : ¬ s.length < 8 := by omega
    simp [Validator.validatePassword, h1', h2', h3']

/-- Witness for C7: `abcdefgh` is long enough and has no uppercase letter, `Abcdefgh` is long
enough, has an uppercase letter and no digit. -/
theorem validatePassword_spec_witness :
    Validator.validatePassword (js "abcdefgh") =
      { valid := false, message := "Password must contain at least one uppercase letter" } ∧
    Validator.validatePassword (js "Abcdefgh") =
      { valid := false, message := "Password must contain at least one number" } ∧
    Validator.validatePassword (js "Ab1") =
      { valid := false, message := "Password must be at least 8 characters long" } :=
  ⟨(validatePassword_spec (js "abcdefgh")).2.2.1 (by decide) (by decide),
   (validatePassword_spec (js "Abcdefgh")).2.2.2.1 (by decide) ⟨65, by decide, by decide⟩
     (by decide),
   (validatePassword_spec (js "Ab1")).2.1 (by decide)⟩

/-! ### The e-mail pattern -/

theorem matchItems_nil (s : JSString) : matchItems [] s = true ↔ s = [] := by
  cases s <;> simp [matchItems]

theorem matchItems_one (cls : Nat → Bool) (rest : List PatItem) (s : JSString) :
    matchItems (.one cls :: rest) s = true ↔
      ∃ c b, s = c :: b ∧ cls c = true ∧ matchItems rest b = true := by
  cases s with
  | nil => simp [matchItems]
  | cons c s =>
    simp only [matchItems, Bool.and_eq_true, List.cons.injEq]
    constructor
    · rintro ⟨h1, h2⟩
      exact ⟨c, s, ⟨rfl, rfl⟩, h1, h2⟩
    · rintro ⟨c', b, ⟨rfl, rfl⟩, h1, h2⟩
      exact ⟨h1, h2⟩

theorem matchItems_many1 (cls : Nat → Bool) (rest : List PatItem) :
    ∀ s : JSString, matchItems (.many1 cls :: rest) s = true ↔
      ∃ a b, s = a ++ b ∧ a ≠ [] ∧ (∀ c ∈ a, cls c = true) ∧ matchItems rest b = true := by
  intro s
  induction s with
  | nil =>
    simp only [matchItems, Bool.false_eq_true, false_iff]
    rintro ⟨a, b, h, ha, -⟩
    cases a with
    | nil => exact ha rfl
    | cons x a => simp at h
  | cons c s ih =>
    simp only [matchItems, Bool.and_eq_true, Bool.or_eq_true]
    constructor
    · rintro ⟨hc, h | h⟩
      · exact ⟨[c], s, rfl, by simp, by simpa using hc, h⟩
      · obtain ⟨a, b, rfl, _, hall, hb⟩ := ih.mp h
        refine ⟨c :: a, b, rfl, by simp, ?_, hb⟩
        intro x hx
        rcases List.mem_cons.mp hx with rfl | hx
        · exact hc
        · exact hall x hx
    · rintro ⟨a, b, h, ha, hall, hb⟩
      cases a with
      | nil => exact absurd rfl ha
      | cons x a =>
        simp only [List.cons_append, List.cons.injEq] at h
        obtain ⟨rfl, rfl⟩ := h
        refine ⟨hall c (by simp), ?_⟩
        cases a with
        | nil => exact Or.inl (by simpa using hb)
        | cons y a =>
          exact Or.inr (ih.mpr ⟨y :: a, b, rfl, by simp,
            fun z hz => hall z (List.mem_cons_of_mem _ hz), hb⟩)

/-- The strings the e-mail pattern accepts: a non-empty local part, `@`, a non-empty label,
`.`, a non-empty rest, none of the three parts containing whitespace or `@`. -/
theorem validateEmail_iff_parts (s : JSString) :
    Validator.validateEmail s = true ↔
      ∃ L D T, s = L ++ 64 :: (D ++ 46 :: T) ∧ L ≠ [] ∧ D ≠ [] ∧ T ≠ [] ∧
        (∀ c ∈ L, notSpaceAt c = true) ∧ (∀ c ∈ D, notSpaceAt c = true) ∧
        (∀ c ∈ T, notSpaceAt c = true) := by
  unfold Validator.validateEmail emailRegex
  constructor
  · intro h
    obtain ⟨L, b1, rfl, hL, hLall, h⟩ := (matchItems_many1 _ _ _).mp h
    obtain ⟨c1, b2, rfl, hc1, h⟩ := (matchItems_one _ _ _).mp h
    obtain ⟨D, b3, rfl, hD, hDall, h⟩ := (matchItems_many1 _ _ _).mp h
    obtain ⟨c2, b4, rfl, hc2, h⟩ := (matchItems_one _ _ _).mp h
    obtain ⟨T, b5, rfl, hT, hTall, h⟩ := (matchItems_many1 _ _ _).mp h
    have hb5 := (matchItems_nil _).mp h
    subst hb5
    have e1 : c1 = 64 := by simpa using hc1
    have e2 : c2 = 46 := by simpa using hc2
    subst e1 e2
    exact ⟨L, D, T, by simp, hL, hD, hT, hLall, hDall, hTall⟩
  · rintro ⟨L, D, T, rfl, hL, hD, hT, hLall, hDall, hTall⟩
    refine (matchItems_many1 _ _ _).mpr ⟨L, _, rfl, hL, hLall, ?_⟩
    refine (matchItems_one _ _ _).mpr ⟨64, _, rfl, by simp, ?_⟩
    refine (matchItems_many1 _ _ _).mpr ⟨D, _, rfl, hD, hDall, ?_⟩
    refine (matchItems_one _ _ _).mpr ⟨46, _, rfl, by simp, ?_⟩
    exact (matchItems_many1 _ _ _).mpr ⟨T, [], by simp, hT, hTall, (matchItems_nil _).mpr rfl⟩

theorem notSpaceAt_iff (c : Nat) : notSpaceAt c = true ↔ isWhiteSpace c = false ∧ c ≠ 64 := by
  simp [notSpaceAt]

/-- C8 (as stated, refuted): each of `a@@b.c`, `@b.c`, `a@.c` and `a@b.` has no whitespace,
an `@` and a `.` after the `@`, and is rejected by `validateEmail`. -/
theorem validateEmail_not_iff_claimed :
    (¬ (Validator.validateEmail (js "a@@b.c") = true ↔
        (∀ c ∈ js "a@@b.c", isWhiteSpace c = false) ∧ 64 ∈ js "a@@b.c" ∧
          ∃ pre post, js "a@@b.c" = pre ++ 64 :: post ∧ 46 ∈ post)) ∧
    (¬ (Validator.validateEmail (js "@b.c") = true ↔
        (∀ c ∈ js "@b.c", isWhiteSpace c = false) ∧ 64 ∈ js "@b.c" ∧
          ∃ pre post, js "@b.c" = pre ++ 64 :: post ∧ 46 ∈ post)) ∧
    (¬ (Validator.validateEmail (js "a@.c") = true ↔
        (∀ c ∈ js "a@.c", isWhiteSpace c = false) ∧ 64 ∈ js "a@.c" ∧
          ∃ pre post, js "a@.c" = pre ++ 64 :: post ∧ 46 ∈ post)) ∧
    (¬ (Validator.validateEmail (js "a@b.") = true ↔
        (∀ c ∈ js "a@b.", isWhiteSpace c = false) ∧ 64 ∈ js "a@b." ∧
          ∃ pre post, js "a@b." = pre ++ 64 :: post ∧ 46 ∈ post)) := by
  refine ⟨fun h => ?_, fun h => ?_, fun h => ?_, fun h => ?_⟩
  · exact absurd (h.mpr ⟨by decide, by decide, js "a", js "@b.c", by decide, by decide⟩)
      (by decide)
  · exact absurd (h.mpr ⟨by decide, by decide, [], js "b.c", by decide, by decide⟩)
      (by decide)
  · exact absurd (h.mpr ⟨by decide, by decide, js "a", js ".c", by decide, by decide⟩)
      (by decide)
  · exact absurd (h.mpr ⟨by decide, by decide, js "a", js "b.", by decide, by decide⟩)
      (by decide)

/-- C8 (amended): `validateEmail(s)` is true exactly when `s` contains no whitespace, contains
exactly one `@` with at least one code unit before it, and the part after the `@` contains a
`.` that is neither its first nor its last code unit; `a@b.com` is accepted, `a@b` is not. -/
theorem validateEmail_iff (s : JSString) :
    (Validator.validateEmail s = true ↔
      (∀ c ∈ s, isWhiteSpace c = false) ∧ s.count 64 = 1 ∧
        ∃ pre post, s = pre ++ 64 :: post ∧ pre ≠ [] ∧
          ∃ D T, post = D ++ 46 :: T ∧ D ≠ [] ∧ T ≠ []) ∧
    Validator.validateEmail (js "a@b.com") = true ∧
    Validator.validateEmail (js "a@b") = false := by
  refine ⟨?_, by decide, by decide⟩
  rw [validateEmail_iff_parts]
  constructor
  · rintro ⟨L, D, T, rfl, hL, hD, hT, hLall, hDall, hTall⟩
    have cz : ∀ l : JSString, (∀ c ∈ l, notSpaceAt c = true) → l.count 64 = 0 := by
      intro l hl
      rw [List.count_eq_zero]
      intro hmem
      exact ((notSpaceAt_iff 64).mp (hl 64 hmem)).2 rfl
    refine ⟨?_, ?_, L, D ++ 46 :: T, rfl, hL, D, T, rfl, hD, hT⟩
    · intro c hc
      simp only [List.mem_append, List.mem_cons] at hc
      rcases hc with h | rfl | h | rfl | h
      · exact ((notSpaceAt_iff c).mp (hLall c h)).1
      · decide
      · exact ((notSpaceAt_iff c).mp (hDall c h)).1
      · decide
      · exact ((notSpaceAt_iff c).mp (hTall c h)).1
    · simp [List.count_append, List.count_cons, cz L hLall, cz D hDall, cz T hTall]
  · rintro ⟨hws, hcount, L, R, rfl, hL, D, T, rfl, hD, hT⟩
    simp only [List.count_append, List.count_cons, beq_self_eq_true, if_true] at hcount
    have hc46 : ((46 : Nat) == 64) = false := by decide
    simp only [hc46, Bool.false_eq_true, if_false] at hcount
    have nz : ∀ l : JSString, l.count 64 = 0 → (∀ c ∈ l, c ∈ L ++ 64 :: (D ++ 46 :: T)) →
        ∀ c ∈ l, notSpaceAt c = true := by
      intro l hl hsub c hc
      rw [notSpaceAt_iff]
      refine ⟨hws c (hsub c hc), ?_⟩
      rintro rfl
      exact (List.count_eq_zero.mp hl) hc
    refine ⟨L, D, T, rfl, hL, hD, hT, nz L (by omega) ?_, nz D (by omega) ?_, nz T (by omega) ?_⟩
    · intro c hc; simp [hc]
    · intro c hc; simp [hc]
    · intro c hc; simp [hc]

/-! ## Sessions -/

/-- C9: after `SessionManager.login(u)` with `Date.now()` reading `t`, the stored session
expires exactly 86,400,000 ms after `t`; `isLoggedIn()` at any time up to and including that
instant answers true and leaves storage as it is; at any later time it answers false and
leaves no session record, so that `getSession()` then returns null. -/
theorem login_expires_after_24h (st : SessionManager.Storage) (date t : Nat) (u : UserData) :
    (SessionManager.getSession (SessionManager.login st date t u)).map (·.expiresAt)
      = some (t + 86400000) ∧
    (∀ t', t' ≤ t + 86400000 →
      SessionManager.isLoggedIn (SessionManager.login st date t u) t'
        = (true, SessionManager.login st date t u)) ∧
    (∀ t', t' > t + 86400000 →
      (SessionManager.isLoggedIn (SessionManager.login st date t u) t').1 = false ∧
      SessionManager.getSession
        (SessionManager.isLoggedIn (SessionManager.login st date t u) t').2 = none) := by
  refine ⟨rfl, ?_, ?_⟩
  · intro t' ht
    have h : ¬ t' > t + 24 * 60 * 60 * 1000 := by omega
    simp [SessionManager.isLoggedIn, SessionManager.getSession, SessionManager.login, h]
  · intro t' ht
    have h : t' > t + 24 * 60 * 60 * 1000 := by omega
    simp [SessionManager.isLoggedIn, SessionManager.getSession, SessionManager.login,
      SessionManager.logout, h]

/-- Witness for C9: a login at `t = 1000`, checked at the last valid instant and one
millisecond later. -/
theorem login_expires_after_24h_witness :
    SessionManager.isLoggedIn
        (SessionManager.login ⟨none, none⟩ 999 1000 (.record [("email", js "a@b.com")])) 86401000
      = (true, SessionManager.login ⟨none, none⟩ 999 1000 (.record [("email", js "a@b.com")])) ∧
    (SessionManager.isLoggedIn
        (SessionManager.login ⟨none, none⟩ 999 1000 (.record [("email", js "a@b.com")]))
        86401001).1 = false :=
  ⟨(login_expires_after_24h ⟨none, none⟩ 999 1000 (.record [("email", js "a@b.com")])).2.1
      86401000 (by decide),
   ((login_expires_after_24h ⟨none, none⟩ 999 1000 (.record [("email", js "a@b.com")])).2.2
      86401001 (by decide)).1⟩

/-- C10 (as stated, refuted): right after `SessionManager.login` the stored end-user session
has no truthy `sessionToken`, and `isLoggedIn()` answers true. -/
theorem isLoggedIn_not_iff_token :
    ¬ ((SessionManager.isLoggedIn
          (SessionManager.login ⟨none, none⟩ 1000 1000 (.record [("email", js "a@b.com")]))
          1000).1 = true ↔
        ∃ s, (SessionManager.login ⟨none, none⟩ 1000 1000
                (.record [("email", js "a@b.com")])).session = some s ∧
          s.hasTruthy "sessionToken" = true ∧ s.hasTruthy "user" = true ∧
          1000 ≤ s.expiresAt) := by
  intro h
  obtain ⟨s, -, htok, -⟩ := h.mp (by decide)
  simp [SessionManager.Session.hasTruthy] at htok

/-- Read as a condition (`ToBoolean`), the value of admin `isAuthenticated()` holds exactly
when a session record is stored whose token and `adminId` are both non-empty; end-user
`isLoggedIn()` answers true exactly when a session record is stored and the current time is
not later than its `expiresAt`. -/
theorem session_valid_iff (adminSt : AdminDashboard.Storage) (st : SessionManager.Storage)
    (now : Nat) :
    ((AdminDashboard.isAuthenticated adminSt).truthy = true ↔
      ∃ s, adminSt.session = some s ∧ s.sessionToken ≠ [] ∧ s.adminId ≠ []) ∧
    ((SessionManager.isLoggedIn st now).1 = true ↔
      ∃ s, st.session = some s ∧ now ≤ s.expiresAt) := by
  constructor
  · unfold AdminDashboard.isAuthenticated AdminDashboard.getSession
    cases hs : adminSt.session with
    | none => simp [JSVal.truthy]
    | some s =>
      by_cases ht : s.sessionToken = []
      · simp [JSVal.truthy, ht]
      · simp [JSVal.truthy, ht]
  · unfold SessionManager.isLoggedIn SessionManager.getSession
    cases hs : st.session with
    | none => simp
    | some s =>
      by_cases hn : now > s.expiresAt
      · simp [hn]
      · simp [hn]
        omega

/-- The value `isAuthenticated()` returns: `false` without a session record, otherwise the
session's token when that is empty and the session's `adminId` when it is not; with the
session `{sessionToken: 'tok', adminId: 'id1'}` it is the string `id1`, not `true`. -/
theorem isAuthenticated_value (adminSt : AdminDashboard.Storage) :
    (adminSt.session = none → AdminDashboard.isAuthenticated adminSt = .bool false) ∧
    (∀ s, adminSt.session = some s → s.sessionToken = [] →
      AdminDashboard.isAuthenticated adminSt = .str []) ∧
    (∀ s, adminSt.session = some s → s.sessionToken ≠ [] →
      AdminDashboard.isAuthenticated adminSt = .str s.adminId) ∧
    AdminDashboard.isAuthenticated ⟨none, some ⟨js "tok", js "id1", 7⟩⟩ = .str (js "id1") ∧
    AdminDashboard.isAuthenticated ⟨none, some ⟨js "tok", js "id1", 7⟩⟩ ≠ .bool true := by
  refine ⟨?_, ?_, ?_, by decide, by decide⟩
  · intro h
    simp [AdminDashboard.isAuthenticated, AdminDashboard.getSession, h]
  · intro s hs ht
    simp [AdminDashboard.isAuthenticated, AdminDashboard.getSession, hs, ht, JSVal.truthy]
  · intro s hs ht
    simp [AdminDashboard.isAuthenticated, AdminDashboard.getSession, hs, ht, JSVal.truthy]

/-- C10 (amended): end-user `isLoggedIn()` returns true exactly when a session record is
stored and the current time is not later than its `expiresAt`, and false in every other
case; admin `isAuthenticated()` returns false when no session record is stored. -/
theorem isLoggedIn_iff_unexpired (adminSt : AdminDashboard.Storage)
    (st : SessionManager.Storage) (now : Nat) :
    ((SessionManager.isLoggedIn st now).1 = true ↔
      ∃ s, st.session = some s ∧ now ≤ s.expiresAt) ∧
    ((SessionManager.isLoggedIn st now).1 = false ↔
      ¬ ∃ s, st.session = some s ∧ now ≤ s.expiresAt) ∧
    (adminSt.session = none → AdminDashboard.isAuthenticated adminSt = .bool false) := by
  have hiff : (SessionManager.isLoggedIn st now).1 = true ↔
      ∃ s, st.session = some s ∧ now ≤ s.expiresAt := by
    unfold SessionManager.isLoggedIn SessionManager.getSession
    cases hs : st.session with
    | none => simp
    | some s =>
      by_cases hn : now > s.expiresAt
      · simp [hn]
      · simp [hn]
        omega
  refine ⟨hiff, ?_, ?_⟩
  · rw [← hiff]
    cases (SessionManager.isLoggedIn st now).1 <;> simp
  · intro h
    simp [AdminDashboard.isAuthenticated, AdminDashboard.getSession, h]

/-- Witness for C10: empty admin storage, and an end-user session checked at its last valid
instant and one millisecond after it. -/
theorem isLoggedIn_iff_unexpired_witness :
    AdminDashboard.isAuthenticated ⟨none, none⟩ = .bool false ∧
    (SessionManager.isLoggedIn
        (SessionManager.login ⟨none, none⟩ 999 1000 (.record [("email", js "a@b.com")]))
        86401000).1 = true ∧
    (SessionManager.isLoggedIn
        (SessionManager.login ⟨none, none⟩ 999 1000 (.record [("email", js "a@b.com")]))
        86401001).1 = false :=
  ⟨(isLoggedIn_iff_unexpired ⟨none, none⟩ ⟨none, none⟩ 0).2.2 rfl,
   (isLoggedIn_iff_unexpired ⟨none, none⟩
      (SessionManager.login ⟨none, none⟩ 999 1000 (.record [("email", js "a@b.com")]))
      86401000).1.mpr ⟨⟨.record [("email", js "a@b.com")], 999, 86401000⟩, rfl, by decide⟩,
   (isLoggedIn_iff_unexpired ⟨none, none⟩
      (SessionManager.login ⟨none, none⟩ 999 1000 (.record [("email", js "a@b.com")]))
      86401001).2.1.mpr (by
        rintro ⟨s, hs, hle⟩
        have h1 : s = ⟨.record [("email", js "a@b.com")], 999, 86401000⟩ :=
          (Option.some.inj hs).symm
        subst h1
        exact absurd hle (by decide))⟩

/-! ## Admin signup and login -/

namespace AdminDashboard

/-- C4: in a store whose accounts can be read, for non-empty email and password, a login
whose normalized email matches no stored account and a login that finds an account whose
stored hash differs from the hash of the supplied password give the same result,
`{success: false, message: 'Invalid email or password'}`, and leave storage untouched. -/
theorem login_failure_uniform (env : Env) (st : Storage) (newToken : JSString) (now : Nat)
    (email password : JSString) (admins : List Admin)
    (he : email ≠ []) (hp : password ≠ []) (hst : getAdmins st = .ok admins) :
    ((∀ a ∈ admins, a.email ≠ trim (env.toLowerCase email)) →
      login env st newToken now email password =
        ({ success := false, message := "Invalid email or password", admin := none }, st)) ∧
    (∀ admin, admins.find? (fun a => a.email = trim (env.toLowerCase email)) = some admin →
      hashPassword env password ≠ admin.passwordHash →
      login env st newToken now email password =
        ({ success := false, message := "Invalid email or password", admin := none }, st)) := by
  constructor
  · intro hnone
    have hfind : admins.find? (fun a => a.email = trim (env.toLowerCase email)) = none := by
      rw [List.find?_eq_none]
      intro a ha
      simpa using hnone a ha
    simp [login, he, hp, hst, hfind]
  · intro admin hfind hne
    simp [login, he, hp, hst, hfind, hne]

set_option maxRecDepth 100000 in
/-- Witness for C4: a store with the single account `a@b.com` / `secret1`; a login with the
unregistered `x@y.org` and a login with `a@b.com` and the wrong password `secret2`. -/
theorem login_failure_uniform_witness :
    login fileEnv
        (signup fileEnv ⟨none, none⟩ (js "id1") 5 (js "Al") (js "a@b.com") (js "secret1")).2
        (js "tok") 7 (js "x@y.org") (js "secret1") =
      login fileEnv
        (signup fileEnv ⟨none, none⟩ (js "id1") 5 (js "Al") (js "a@b.com") (js "secret1")).2
        (js "tok") 7 (js "a@b.com") (js "secret2") :=
  ((login_failure_uniform fileEnv
      (signup fileEnv ⟨none, none⟩ (js "id1") 5 (js "Al") (js "a@b.com") (js "secret1")).2
      (js "tok") 7 (js "x@y.org") (js "secret1")
      [⟨js "id1", js "Al", js "a@b.com", fallbackHash (js "secret1"), 5⟩]
      (by decide) (by decide) rfl).1 (by decide)).trans
  ((login_failure_uniform fileEnv
      (signup fileEnv ⟨none, none⟩ (js "id1") 5 (js "Al") (js "a@b.com") (js "secret1")).2
      (js "tok") 7 (js "a@b.com") (js "secret2")
      [⟨js "id1", js "Al", js "a@b.com", fallbackHash (js "secret1"), 5⟩]
      (by decide) (by decide) rfl).2
      ⟨js "id1", js "Al", js "a@b.com", fallbackHash (js "secret1"), 5⟩
      (by decide) (by decide)).symm

/-- What `signup` does once its input checks pass and the accounts can be read. -/
theorem signup_of_valid (env : Env) (st : Storage) (newId : JSString) (now : Nat)
    (fullName email password : JSString) (admins : List Admin)
    (hn : fullName ≠ []) (he : matchItems emailRegex email = true) (hp : 6 ≤ password.length)
    (hst : getAdmins st = .ok admins) :
    signup env st newId now fullName email password =
      if admins.any (fun admin => admin.email = email) then
        ({ success := false, message := "Email already registered", admin := none }, st)
      else
        ({ success := true, message := "Account created successfully!", admin := none },
          saveAdmins st (admins ++ [(⟨newId, trim fullName, trim (env.toLowerCase email),
            hashPassword env password, now⟩ : Admin)])) := by
  have he' : email ≠ [] := by
    rintro rfl
    simp [emailRegex, matchItems] at he
  have hp' : password ≠ [] := by
    rintro rfl
    simp at hp
  have hp'' : ¬ password.length < 6 := by omega
  simp [signup, hn, he, he', hp', hp'', hst]

/-- The behaviour C1 describes, on stores where no account carries the normalized email yet:
a successful signup is followed by a successful login returning the new account. -/
theorem signup_then_login_of_fresh_email (env : Env) (st : Storage) (newId newToken : JSString)
    (now now' : Nat) (fullName email password : JSString) (admins : List Admin)
    (hn : fullName ≠ []) (he : matchItems emailRegex email = true) (hp : 6 ≤ password.length)
    (hst : getAdmins st = .ok admins)
    (hfresh : ∀ a ∈ admins, a.email ≠ trim (env.toLowerCase email))
    (hs : (signup env st newId now fullName email password).1.success = true) :
    (login env (signup env st newId now fullName email password).2 newToken now' email
        password).1 =
      { success := true, message := "Login successful!",
        admin := some { id := newId, fullName := trim fullName,
                        email := trim (env.toLowerCase email) } } := by
  have he' : email ≠ [] := by
    rintro rfl
    simp [emailRegex, matchItems] at he
  have hp' : password ≠ [] := by
    rintro rfl
    simp at hp
  rw [signup_of_valid env st newId now fullName email password admins hn he hp hst] at hs ⊢
  by_cases hdup : admins.any (fun admin => admin.email = email) = true
  · simp [hdup] at hs
  · have hfind : admins.find? (fun a => a.email = trim (env.toLowerCase email)) = none := by
      rw [List.find?_eq_none]
      intro a ha
      simpa using hfresh a ha
    simp [hdup, login, he', hp', getAdmins, saveAdmins, List.find?_append, hfind]

/-- The behaviour C2 describes, for an email that is stored exactly as it is typed: the call
is rejected and storage is left as it was. -/
theorem signup_rejects_stored_email (env : Env) (st : Storage) (newId : JSString) (now : Nat)
    (fullName email password : JSString) (admins : List Admin)
    (hn : fullName ≠ []) (he : matchItems emailRegex email = true) (hp : 6 ≤ password.length)
    (hst : getAdmins st = .ok admins) (hmem : ∃ a ∈ admins, a.email = email) :
    signup env st newId now fullName email password =
      ({ success := false, message := "Email already registered", admin := none }, st) := by
  rw [signup_of_valid env st newId now fullName email password admins hn he hp hst]
  have hdup : admins.any (fun admin => admin.email = email) = true := by
    simpa [List.any_eq_true] using hmem
  simp [hdup]

/-- A signup never touches the accounts when it fails, and appends one account when it
succeeds. -/
theorem signup_storedEmails (env : Env) (st : Storage) (newId : JSString) (now : Nat)
    (fullName email password : JSString) :
    storedEmails (signup env st newId now fullName email password).2 = storedEmails st ∨
    (email ∉ storedEmails st ∧
      storedEmails (signup env st newId now fullName email password).2
        = storedEmails st ++ [trim (env.toLowerCase email)]) := by
  unfold signup
  split
  · exact Or.inl rfl
  · split
    · exact Or.inl rfl
    · split
      · exact Or.inl rfl
      · split
        · exact Or.inl rfl
        · rename_i admins hst
          split
          · exact Or.inl rfl
          · rename_i hdup
            refine Or.inr ⟨?_, ?_⟩
            · simp only [storedEmails, hst, List.mem_map, not_exists, not_and]
              intro a ha hae
              exact hdup (List.any_eq_true.mpr ⟨a, ha, by simpa using hae⟩)
            · have h1 : storedEmails st = admins.map (·.email) := by
                simp [storedEmails, hst]
              rw [h1]
              simp [storedEmails, getAdmins, saveAdmins]

/-- The behaviour C3 describes, for callers that only pass emails already in normalized form
(lower-cased and trimmed): stored emails stay pairwise distinct along any sequence of
signups. -/
theorem runSignups_unique_emails_of_normalized (env : Env) (calls : List SignupCall) :
    ∀ st : Storage, (storedEmails st).Nodup →
      (∀ c ∈ calls, trim (env.toLowerCase c.email) = c.email) →
      (storedEmails (runSignups env st calls)).Nodup := by
  induction calls with
  | nil => intro st h _; exact h
  | cons c cs ih =>
    intro st h hnorm
    unfold runSignups
    apply ih
    · rcases signup_storedEmails env st c.newId c.now c.fullName c.email c.password with
        heq | ⟨hnot, heq⟩
      · rw [heq]; exact h
      · rw [heq, hnorm c (by simp)]
        rw [List.nodup_append]
        refine ⟨h, by simp, ?_⟩
        intro x hx hy
        simp only [List.mem_singleton] at hy
        subst hy
        exact hnot hx
    · intro c' hc'
      exact hnorm c' (List.mem_cons_of_mem _ hc')

set_option maxRecDepth 100000 in
/-- C1 (the code at the failing input): with `a@b.com` / `secret1` registered, the signup of
`A@b.com` / `secret2` succeeds, and the login with the same `A@b.com` / `secret2` right after
it is rejected with `Invalid email or password`. -/
theorem signup_then_login_rejected :
    (signup fileEnv
        (signup fileEnv ⟨none, none⟩ (js "id1") 5 (js "Al") (js "a@b.com") (js "secret1")).2
        (js "id2") 6 (js "Bob") (js "A@b.com") (js "secret2")).1.success = true ∧
    (login fileEnv
        (signup fileEnv
          (signup fileEnv ⟨none, none⟩ (js "id1") 5 (js "Al") (js "a@b.com") (js "secret1")).2
          (js "id2") 6 (js "Bob") (js "A@b.com") (js "secret2")).2
        (js "tok") 7 (js "A@b.com") (js "secret2")).1
      = { success := false, message := "Invalid email or password", admin := none } := by
  decide

set_option maxRecDepth 100000 in
/-- C2 (the code at the failing input): the store holds an account with email `a@b.com`, the
email `A@b.com` lower-cases to it, and `signup` with `A@b.com` answers
`Account created successfully!` and appends a second account. -/
theorem signup_case_variant_accepted :
    storedEmails
        (signup fileEnv ⟨none, none⟩ (js "id1") 5 (js "Al") (js "a@b.com") (js "secret1")).2
      = [js "a@b.com"] ∧
    fileEnv.toLowerCase (js "A@b.com") = js "a@b.com" ∧
    (signup fileEnv
        (signup fileEnv ⟨none, none⟩ (js "id1") 5 (js "Al") (js "a@b.com") (js "secret1")).2
        (js "id2") 6 (js "Bob") (js "A@b.com") (js "secret2")).1
      = { success := true, message := "Account created successfully!", admin := none } ∧
    (signup fileEnv
        (signup fileEnv ⟨none, none⟩ (js "id1") 5 (js "Al") (js "a@b.com") (js "secret1")).2
        (js "id2") 6 (js "Bob") (js "A@b.com") (js "secret2")).2
      ≠ (signup fileEnv ⟨none, none⟩ (js "id1") 5 (js "Al") (js "a@b.com") (js "secret1")).2 := by
  decide

set_option maxRecDepth 100000 in
/-- C3 (the code at the failing input): from the empty store, the signups of `a@b.com` and of
`A@b.com` leave two accounts with the email `a@b.com`. -/
theorem signups_leave_duplicate_email :
    storedEmails (runSignups fileEnv ⟨none, none⟩
        [⟨js "id1", 5, js "Al", js "a@b.com", js "secret1"⟩,
         ⟨js "id2", 6, js "Bob", js "A@b.com", js "secret2"⟩])
      = [js "a@b.com", js "a@b.com"] ∧
    ¬ (storedEmails (runSignups fileEnv ⟨none, none⟩
        [⟨js "id1", 5, js "Al", js "a@b.com", js "secret1"⟩,
         ⟨js "id2", 6, js "Bob", js "A@b.com", js "secret2"⟩])).Nodup := by
  decide

end AdminDashboard

/-! ## Logout -/

/-- C11: in both modules `logout` is a total function that leaves no session record, doing
it twice leaves the same storage as doing it once, and afterwards `isAuthenticated()` is
`false` and `isLoggedIn()` answers false (at any time) without touching storage again. -/
theorem logout_idempotent (adminSt : AdminDashboard.Storage) (st : SessionManager.Storage)
    (now : Nat) :
    (AdminDashboard.getSession (AdminDashboard.logout adminSt) = none ∧
      AdminDashboard.getSession (AdminDashboard.clearSession adminSt) = none ∧
      AdminDashboard.logout (AdminDashboard.logout adminSt) = AdminDashboard.logout adminSt ∧
      AdminDashboard.isAuthenticated (AdminDashboard.logout adminSt) = .bool false ∧
      (AdminDashboard.isAuthenticated (AdminDashboard.logout adminSt)).truthy = false) ∧
    (SessionManager.getSession (SessionManager.logout st) = none ∧
      SessionManager.logout (SessionManager.logout st) = SessionManager.logout st ∧
      SessionManager.isLoggedIn (SessionManager.logout st) now
        = (false, SessionManager.logout st)) := by
  refine ⟨⟨rfl, rfl, rfl, rfl, rfl⟩, rfl, rfl, rfl⟩

/-! ## Admin signup: validation, faults, frame -/

namespace AdminDashboard

theorem password_ne_nil_of_length {password : JSString} (hp : 6 ≤ password.length) :
    password ≠ [] := by
  rintro rfl
  simp at hp

/-- C12: `signup` answers `success: false` and leaves storage as it is when one of the three
fields is empty (`All fields are required`), otherwise when the email fails the pattern
(`Invalid email format`), otherwise when the password has fewer than 6 code units
(`Password must be at least 6 characters`); with a password of 6 or more code units the
answer is never the password message and does not depend on which such password is given. -/
theorem signup_validation_order (env : Env) (st : Storage) (newId : JSString) (now : Nat)
    (fullName email password : JSString) :
    ((fullName = [] ∨ email = [] ∨ password = []) →
      signup env st newId now fullName email password =
        ({ success := false, message := "All fields are required", admin := none }, st)) ∧
    (fullName ≠ [] → email ≠ [] → password ≠ [] → matchItems emailRegex email = false →
      signup env st newId now fullName email password =
        ({ success := false, message := "Invalid email format", admin := none }, st)) ∧
    (fullName ≠ [] → email ≠ [] → password ≠ [] → matchItems emailRegex email = true →
      password.length < 6 →
      signup env st newId now fullName email password =
        ({ success := false, message := "Password must be at least 6 characters",
           admin := none }, st)) ∧
    (6 ≤ password.length →
      (signup env st newId now fullName email password).1.message
        ≠ "Password must be at least 6 characters" ∧
      ∀ password' : JSString, 6 ≤ password'.length →
        (signup env st newId now fullName email password').1
          = (signup env st newId now fullName email password).1) := by
  refine ⟨?_, ?_, ?_, ?_⟩
  · intro h
    simp [signup, h]
  · intro hn he hp hre
    simp [signup, hn, he, hp, hre]
  · intro hn he hp hre hlen
    simp [signup, hn, he, hp, hre, hlen]
  · intro hlen
    have hp := password_ne_nil_of_length hlen
    have hlen' : ¬ password.length < 6 := by omega
    constructor
    · by_cases hn : fullName = []
      · simp [signup, hn]
      · by_cases he : email = []
        · simp [signup, he]
        · by_cases hre : matchItems emailRegex email = true
          · cases hst : getAdmins st with
            | error e => simp [signup, hn, he, hp, hre, hlen', hst]
            | ok admins =>
              rw [signup_of_valid env st newId now fullName email password admins hn hre hlen hst]
              by_cases hdup : admins.any (fun admin => admin.email = email) = true
              · simp [hdup]
              · simp [hdup]
          · simp [signup, hn, he, hp, hre]
    · intro password' hlen2
      have hp2 := password_ne_nil_of_length hlen2
      have hlen2' : ¬ password'.length < 6 := by omega
      by_cases hn : fullName = []
      · simp [signup, hn]
      · by_cases he : email = []
        · simp [signup, he]
        · by_cases hre : matchItems emailRegex email = true
          · cases hst : getAdmins st with
            | error e => simp [signup, hn, he, hp, hp2, hre, hlen', hlen2', hst]
            | ok admins =>
              rw [signup_of_valid env st newId now fullName email password admins hn hre hlen hst,
                signup_of_valid env st newId now fullName email password' admins hn hre hlen2
                  hst]
              by_cases hdup : admins.any (fun admin => admin.email = email) = true
              · simp [hdup]
              · simp [hdup]
          · simp [signup, hn, he, hp, hp2, hre]

/-- Witness for C12: an empty name, the email `a@b` and the password `abc`, each with the
other fields valid, and the all-lowercase password `abcdef` against `Abcdef1`. -/
theorem signup_validation_order_witness :
    signup fileEnv ⟨none, none⟩ (js "id1") 5 [] (js "a@b.com") (js "secret1") =
      ({ success := false, message := "All fields are required", admin := none },
        ⟨none, none⟩) ∧
    signup fileEnv ⟨none, none⟩ (js "id1") 5 (js "Al") (js "a@b") (js "secret1") =
      ({ success := false, message := "Invalid email format", admin := none }, ⟨none, none⟩) ∧
    signup fileEnv ⟨none, none⟩ (js "id1") 5 (js "Al") (js "a@b.com") (js "abc") =
      ({ success := false, message := "Password must be at least 6 characters",
         admin := none }, ⟨none, none⟩) ∧
    (signup fileEnv ⟨none, none⟩ (js "id1") 5 (js "Al") (js "a@b.com") (js "Abcdef1")).1 =
      (signup fileEnv ⟨none, none⟩ (js "id1") 5 (js "Al") (js "a@b.com") (js "abcdef")).1 :=
  ⟨(signup_validation_order fileEnv ⟨none, none⟩ (js "id1") 5 [] (js "a@b.com")
      (js "secret1")).1 (Or.inl rfl),
   (signup_validation_order fileEnv ⟨none, none⟩ (js "id1") 5 (js "Al") (js "a@b")
      (js "secret1")).2.1 (by decide) (by decide) (by decide) (by decide),
   (signup_validation_order fileEnv ⟨none, none⟩ (js "id1") 5 (js "Al") (js "a@b.com")
      (js "abc")).2.2.1 (by decide) (by decide) (by decide) (by decide) (by decide),
   ((signup_validation_order fileEnv ⟨none, none⟩ (js "id1") 5 (js "Al") (js "a@b.com")
      (js "abcdef")).2.2.2 (by decide)).2 (js "Abcdef1") (by decide)⟩

end AdminDashboard

/-! ## Admin login: the session it writes -/

namespace AdminDashboard

/-- What a successful `login` did: the accounts were readable, the first account under the
normalized email was found and its stored hash equals the hash of the password. -/
theorem login_success_inv (env : Env) (st : Storage) (newToken : JSString) (now : Nat)
    (email password : JSString)
    (h : (login env st newToken now email password).1.success = true) :
    ∃ admins admin, getAdmins st = .ok admins ∧
      admins.find? (fun a => a.email = trim (env.toLowerCase email)) = some admin ∧
      hashPassword env password = admin.passwordHash ∧
      login env st newToken now email password =
        ({ success := true, message := "Login successful!",
           admin := some { id := admin.id, fullName := admin.fullName, email := admin.email } },
         { admins := st.admins,
           session := some { sessionToken := newToken, adminId := admin.id,
                             loginTime := now } }) := by
  by_cases hv : email = [] ∨ password = []
  · simp [login, hv] at h
  · cases hst : getAdmins st with
    | error e => simp [login, hv, hst] at h
    | ok admins =>
      cases hfind : admins.find? (fun a => a.email = trim (env.toLowerCase email)) with
      | none => simp [login, hv, hst, hfind] at h
      | some admin =>
        by_cases hh : hashPassword env password = admin.passwordHash
        · refine ⟨admins, admin, rfl, hfind, hh, ?_⟩
          simp [login, hv, hst, hfind, hh, saveSession]
        · simp [login, hv, hst, hfind, hh] at h

/-- C13: whenever `login` returns success, whatever the prior storage (with or without a
session), the session stored afterwards is the new record, its `adminId` is the id of the
stored account found under the lower-cased, trimmed email, and the returned projection is
that account's id, fullName and email (a record without a passwordHash field). -/
theorem login_success_session (env : Env) (st : Storage) (newToken : JSString) (now : Nat)
    (email password : JSString)
    (h : (login env st newToken now email password).1.success = true) :
    ∃ admins admin, getAdmins st = .ok admins ∧
      admins.find? (fun a => a.email = trim (env.toLowerCase email)) = some admin ∧
      admin ∈ admins ∧ admin.email = trim (env.toLowerCase email) ∧
      getSession (login env st newToken now email password).2 =
        some { sessionToken := newToken, adminId := admin.id, loginTime := now } ∧
      (login env st newToken now email password).1.admin =
        some { id := admin.id, fullName := admin.fullName, email := admin.email } ∧
      (login env st newToken now email password).1.message = "Login successful!" := by
  obtain ⟨admins, admin, hst, hfind, -, heq⟩ := login_success_inv env st newToken now email
    password h
  refine ⟨admins, admin, hst, hfind, List.mem_of_find?_eq_some hfind, ?_, ?_, ?_, ?_⟩
  · simpa using List.find?_some hfind
  · rw [heq]; rfl
  · rw [heq]
  · rw [heq]

set_option maxRecDepth 100000 in
/-- Witness for C13: a login over an older session, after the signup of `a@b.com`. -/
theorem login_success_session_witness :
    getSession
      (login fileEnv
        (saveSession
          (signup fileEnv ⟨none, none⟩ (js "id1") 5 (js "Al") (js "a@b.com") (js "secret1")).2
          ⟨js "old", js "id0", 1⟩)
        (js "tok") 7 (js "A@b.com ") (js "secret1")).2
      = some { sessionToken := js "tok", adminId := js "id1", loginTime := 7 } := by
  obtain ⟨admins, admin, hst, hfind, -, -, hsess, -, -⟩ :=
    login_success_session fileEnv
      (saveSession
        (signup fileEnv ⟨none, none⟩ (js "id1") 5 (js "Al") (js "a@b.com") (js "secret1")).2
        ⟨js "old", js "id0", 1⟩)
      (js "tok") 7 (js "A@b.com ") (js "secret1") (by decide)
  rw [hsess]
  have h1 : admins = [⟨js "id1", js "Al", js "a@b.com", fallbackHash (js "secret1"), 5⟩] := by
    have h2 : getAdmins (saveSession
        (signup fileEnv ⟨none, none⟩ (js "id1") 5 (js "Al") (js "a@b.com") (js "secret1")).2
        ⟨js "old", js "id0", 1⟩)
        = .ok [⟨js "id1", js "Al", js "a@b.com", fallbackHash (js "secret1"), 5⟩] := rfl
    rw [h2] at hst
    exact (Except.ok.inj hst).symm
  subst h1
  have h3 : admin = ⟨js "id1", js "Al", js "a@b.com", fallbackHash (js "secret1"), 5⟩ := by
    have h4 : List.find? (fun a : Admin => a.email = trim (fileEnv.toLowerCase (js "A@b.com ")))
        [⟨js "id1", js "Al", js "a@b.com", fallbackHash (js "secret1"), 5⟩]
        = some ⟨js "id1", js "Al", js "a@b.com", fallbackHash (js "secret1"), 5⟩ := by
      decide
    rw [h4] at hfind
    exact (Option.some.inj hfind).symm
  subst h3
  rfl

end AdminDashboard

/-! ## The stored accounts are only ever appended to -/

namespace AdminDashboard

theorem login_admins_unchanged (env : Env) (st : Storage) (newToken : JSString) (now : Nat)
    (email password : JSString) :
    (login env st newToken now email password).2.admins = st.admins := by
  unfold login
  split
  · rfl
  · split
    · rfl
    · split
      · rfl
      · dsimp only
        split <;> rfl

theorem signup_failure_storage (env : Env) (st : Storage) (newId : JSString) (now : Nat)
    (fullName email password : JSString)
    (h : (signup env st newId now fullName email password).1.success = false) :
    (signup env st newId now fullName email password).2 = st := by
  unfold signup at h ⊢
  split
  · rfl
  · split
    · rfl
    · split
      · rfl
      · split
        · rfl
        · split
          · rfl
          · rename_i h1 h2 h3 _ admins hst hdup
            simp [h1, h2, h3, hst, hdup] at h

theorem signup_success_storage (env : Env) (st : Storage) (newId : JSString) (now : Nat)
    (fullName email password : JSString)
    (h : (signup env st newId now fullName email password).1.success = true) :
    ∃ admins, getAdmins st = .ok admins ∧
      (signup env st newId now fullName email password).2 =
        saveAdmins st (admins ++ [(⟨newId, trim fullName, trim (env.toLowerCase email),
          hashPassword env password, now⟩ : Admin)]) := by
  by_cases hv : fullName = [] ∨ email = [] ∨ password = []
  · simp [signup, hv] at h
  · by_cases hre : matchItems emailRegex email = true
    · by_cases hlen : password.length < 6
      · simp [signup, hv, hre, hlen] at h
      · cases hst : getAdmins st with
        | error e => simp [signup, hv, hre, hlen, hst] at h
        | ok admins =>
          by_cases hdup : admins.any (fun admin => admin.email = email) = true
          · simp [signup, hv, hre, hlen, hst, hdup] at h
          · refine ⟨admins, rfl, ?_⟩
            simp [signup, hv, hre, hlen, hst, hdup]
    · simp [signup, hv, hre] at h

/-- C16: `login`, `logout` and every failing `signup` leave the stored account collection as
it was (`isAuthenticated` and `getCurrentAdmin` only read storage), and a successful `signup`
keeps every stored account, in order, and adds exactly one account at the end; the session
slot is not touched by `signup`. -/
theorem accounts_only_appended (env : Env) (st : Storage) (newId newToken : JSString)
    (now : Nat) (fullName email password : JSString) :
    (login env st newToken now email password).2.admins = st.admins ∧
    (logout st).admins = st.admins ∧
    ((signup env st newId now fullName email password).1.success = false →
      (signup env st newId now fullName email password).2 = st) ∧
    ((signup env st newId now fullName email password).1.success = true →
      ∃ admins newAdmin, getAdmins st = .ok admins ∧
        getAdmins (signup env st newId now fullName email password).2
          = .ok (admins ++ [newAdmin]) ∧
        (signup env st newId now fullName email password).2.session = st.session) := by
  refine ⟨login_admins_unchanged env st newToken now email password, rfl,
    signup_failure_storage env st newId now fullName email password, ?_⟩
  intro h
  obtain ⟨admins, hst, heq⟩ := signup_success_storage env st newId now fullName email password h
  exact ⟨admins, _, hst, by rw [heq]; rfl, by rw [heq]; rfl⟩

set_option maxRecDepth 100000 in
/-- Witness for C16: a rejected signup (password `abc`) and an accepted one on the store that
holds `a@b.com`. -/
theorem accounts_only_appended_witness :
    (signup fileEnv
        (signup fileEnv ⟨none, none⟩ (js "id1") 5 (js "Al") (js "a@b.com") (js "secret1")).2
        (js "id2") 6 (js "Bob") (js "c@d.org") (js "abc")).2
      = (signup fileEnv ⟨none, none⟩ (js "id1") 5 (js "Al") (js "a@b.com") (js "secret1")).2 ∧
    ∃ admins newAdmin,
      getAdmins
          (signup fileEnv ⟨none, none⟩ (js "id1") 5 (js "Al") (js "a@b.com") (js "secret1")).2
        = .ok admins ∧
      getAdmins (signup fileEnv
          (signup fileEnv ⟨none, none⟩ (js "id1") 5 (js "Al") (js "a@b.com") (js "secret1")).2
          (js "id2") 6 (js "Bob") (js "c@d.org") (js "secret2")).2
        = .ok (admins ++ [newAdmin]) ∧
      (signup fileEnv
          (signup fileEnv ⟨none, none⟩ (js "id1") 5 (js "Al") (js "a@b.com") (js "secret1")).2
          (js "id2") 6 (js "Bob") (js "c@d.org") (js "secret2")).2.session
        = (signup fileEnv ⟨none, none⟩ (js "id1") 5 (js "Al") (js "a@b.com")
            (js "secret1")).2.session :=
  ⟨(accounts_only_appended fileEnv
      (signup fileEnv ⟨none, none⟩ (js "id1") 5 (js "Al") (js "a@b.com") (js "secret1")).2
      (js "id2") (js "tok") 6 (js "Bob") (js "c@d.org") (js "abc")).2.2.1 (by decide),
   (accounts_only_appended fileEnv
      (signup fileEnv ⟨none, none⟩ (js "id1") 5 (js "Al") (js "a@b.com") (js "secret1")).2
      (js "id2") (js "tok") 6 (js "Bob") (js "c@d.org") (js "secret2")).2.2.2 (by decide)⟩

/-- C17: `signup` and `login` are total functions returning a `{success, message}` record;
when the stored credentials cannot be read and the inputs pass validation, `signup` answers
`An error occurred during signup` and `login` answers `An error occurred during login`, both
with `success: false` and storage left as it was. -/
theorem signup_login_catch_faults (env : Env) (st : Storage) (newId newToken : JSString)
    (now : Nat) (fullName email password : JSString)
    (hmal : st.admins = some .malformed) :
    (fullName ≠ [] → matchItems emailRegex email = true → 6 ≤ password.length →
      signup env st newId now fullName email password =
        ({ success := false, message := "An error occurred during signup", admin := none },
          st)) ∧
    (email ≠ [] → password ≠ [] →
      login env st newToken now email password =
        ({ success := false, message := "An error occurred during login", admin := none },
          st)) := by
  have hst : getAdmins st = .error .error := by
    simp [getAdmins, hmal]
  constructor
  · intro hn hre hlen
    have hp := password_ne_nil_of_length hlen
    have he : email ≠ [] := by
      rintro rfl
      simp [emailRegex, matchItems] at hre
    have hlen' : ¬ password.length < 6 := by omega
    simp [signup, hn, he, hp, hre, hlen', hst]
  · intro he hp
    simp [login, he, hp, hst]

/-- Witness for C17: a credentials blob that cannot be read, with a session present. -/
theorem signup_login_catch_faults_witness :
    signup fileEnv ⟨some .malformed, some ⟨js "tok", js "id1", 3⟩⟩ (js "id2") 6 (js "Bob")
        (js "c@d.org") (js "secret2") =
      ({ success := false, message := "An error occurred during signup", admin := none },
        ⟨some .malformed, some ⟨js "tok", js "id1", 3⟩⟩) ∧
    login fileEnv ⟨some .malformed, some ⟨js "tok", js "id1", 3⟩⟩ (js "tok2") 7
        (js "c@d.org") (js "secret2") =
      ({ success := false, message := "An error occurred during login", admin := none },
        ⟨some .malformed, some ⟨js "tok", js "id1", 3⟩⟩) :=
  ⟨(signup_login_catch_faults fileEnv ⟨some .malformed, some ⟨js "tok", js "id1", 3⟩⟩
      (js "id2") (js "tok2") 6 (js "Bob") (js "c@d.org") (js "secret2") rfl).1
      (by decide) (by decide) (by decide),
   (signup_login_catch_faults fileEnv ⟨some .malformed, some ⟨js "tok", js "id1", 3⟩⟩
      (js "id2") (js "tok2") 7 (js "Bob") (js "c@d.org") (js "secret2") rfl).2
      (by decide) (by decide)⟩

end AdminDashboard

/-! ## The current admin -/

namespace AdminDashboard

/-- C14 (as stated, refuted): with a stored session whose token is empty,
`isAuthenticated()` is falsy and `getCurrentAdmin()` still returns the account whose id is
the session's `adminId`; and with a session present and a credentials blob that cannot be
read, `getCurrentAdmin()` does not return null, it faults. -/
theorem getCurrentAdmin_not_null_when_unauthenticated :
    ¬ ((isAuthenticated
          ⟨some (.accounts [⟨js "id1", js "Al", js "a@b.com", fallbackHash (js "secret1"), 5⟩]),
           some ⟨[], js "id1", 7⟩⟩).truthy = false →
        getCurrentAdmin
          ⟨some (.accounts [⟨js "id1", js "Al", js "a@b.com", fallbackHash (js "secret1"), 5⟩]),
           some ⟨[], js "id1", 7⟩⟩ = .ok none) ∧
    getCurrentAdmin ⟨some .malformed, some ⟨js "tok", js "id1", 7⟩⟩ = .error .error := by
  refine ⟨fun h => ?_, rfl⟩
  have h1 := h (by decide)
  have h2 : getCurrentAdmin
      ⟨some (.accounts [⟨js "id1", js "Al", js "a@b.com", fallbackHash (js "secret1"), 5⟩]),
       some ⟨[], js "id1", 7⟩⟩ = .ok (some ⟨js "id1", js "Al", js "a@b.com", 5⟩) := rfl
  rw [h2] at h1
  cases h1

/-- C14 (amended): `getCurrentAdmin()` returns null when no session record is stored; when a
session record is stored and the accounts can be read, it returns the projection (id,
fullName, email, createdAt, no passwordHash) of the first stored account whose id equals the
session's `adminId`, and null when no stored account has that id. The token is not looked
at. -/
theorem getCurrentAdmin_spec (st : Storage) :
    (st.session = none → getCurrentAdmin st = .ok none) ∧
    (∀ session admins, st.session = some session → getAdmins st = .ok admins →
      (∀ a ∈ admins, a.id ≠ session.adminId) → getCurrentAdmin st = .ok none) ∧
    (∀ session admins admin, st.session = some session → getAdmins st = .ok admins →
      admins.find? (fun a => a.id = session.adminId) = some admin →
      admin ∈ admins ∧ admin.id = session.adminId ∧
      getCurrentAdmin st = .ok (some { id := admin.id, fullName := admin.fullName,
                                       email := admin.email, createdAt := admin.createdAt })) := by
  refine ⟨?_, ?_, ?_⟩
  · intro h
    simp [getCurrentAdmin, getSession, h]
  · intro session admins hs hst hnone
    have hfind : admins.find? (fun a => a.id = session.adminId) = none := by
      rw [List.find?_eq_none]
      intro a ha
      simpa using hnone a ha
    simp [getCurrentAdmin, getSession, hs, hst, hfind]
  · intro session admins admin hs hst hfind
    refine ⟨List.mem_of_find?_eq_some hfind, by simpa using List.find?_some hfind, ?_⟩
    simp [getCurrentAdmin, getSession, hs, hst, hfind]

set_option maxRecDepth 100000 in
/-- Witness for C14: no session; a session for an id nobody has; the session written by a
login. -/
theorem getCurrentAdmin_spec_witness :
    getCurrentAdmin
        (signup fileEnv ⟨none, none⟩ (js "id1") 5 (js "Al") (js "a@b.com") (js "secret1")).2
      = .ok none ∧
    getCurrentAdmin
        ⟨some (.accounts [⟨js "id1", js "Al", js "a@b.com", fallbackHash (js "secret1"), 5⟩]),
         some ⟨js "tok", js "id9", 7⟩⟩ = .ok none ∧
    getCurrentAdmin
        ⟨some (.accounts [⟨js "id1", js "Al", js "a@b.com", fallbackHash (js "secret1"), 5⟩]),
         some ⟨js "tok", js "id1", 7⟩⟩ = .ok (some ⟨js "id1", js "Al", js "a@b.com", 5⟩) :=
  ⟨(getCurrentAdmin_spec
      (signup fileEnv ⟨none, none⟩ (js "id1") 5 (js "Al") (js "a@b.com") (js "secret1")).2).1
      (by decide),
   (getCurrentAdmin_spec
      ⟨some (.accounts [⟨js "id1", js "Al", js "a@b.com", fallbackHash (js "secret1"), 5⟩]),
       some ⟨js "tok", js "id9", 7⟩⟩).2.1 ⟨js "tok", js "id9", 7⟩
      [⟨js "id1", js "Al", js "a@b.com", fallbackHash (js "secret1"), 5⟩] rfl rfl (by decide),
   ((getCurrentAdmin_spec
      ⟨some (.accounts [⟨js "id1", js "Al", js "a@b.com", fallbackHash (js "secret1"), 5⟩]),
       some ⟨js "tok", js "id1", 7⟩⟩).2.2 ⟨js "tok", js "id1", 7⟩
      [⟨js "id1", js "Al", js "a@b.com", fallbackHash (js "secret1"), 5⟩]
      ⟨js "id1", js "Al", js "a@b.com", fallbackHash (js "secret1"), 5⟩ rfl rfl
      (by decide)).2.2⟩

end AdminDashboard

/-! ## The stored full name -/

theorem trim_eq_rdropWhile (s : JSString) :
    trim s = (s.dropWhile isWhiteSpace).rdropWhile isWhiteSpace := rfl

/-- A trimmed string does not end with whitespace. -/
theorem trim_getLast_not_whiteSpace (s : JSString) (c : Nat)
    (h : (trim s).getLast? = some c) : isWhiteSpace c = false := by
  unfold trim at h
  rw [List.getLast?_reverse] at h
  have := List.head?_dropWhile_not isWhiteSpace (s.dropWhile isWhiteSpace).reverse
  rw [h] at this
  simpa using this

/-- A trimmed string does not start with whitespace. -/
theorem trim_head_not_whiteSpace (s : JSString) (c : Nat)
    (h : (trim s).head? = some c) : isWhiteSpace c = false := by
  obtain ⟨rest, hrest⟩ : trim s <+: s.dropWhile isWhiteSpace := by
    rw [trim_eq_rdropWhile]
    exact List.rdropWhile_prefix _ _
  cases ht : trim s with
  | nil => simp [ht] at h
  | cons x u =>
    rw [ht] at h hrest
    simp only [List.head?_cons, Option.some.injEq] at h
    subst h
    have := List.head?_dropWhile_not isWhiteSpace s
    rw [← hrest] at this
    simpa using this

/-- The trimmed string is empty exactly when the string consists of whitespace only. -/
theorem trim_eq_nil_iff (s : JSString) : trim s = [] ↔ ∀ c ∈ s, isWhiteSpace c = true := by
  rw [trim_eq_rdropWhile, List.rdropWhile_eq_nil_iff]
  constructor
  · intro h c hc
    by_contra hws
    have hne : s.dropWhile isWhiteSpace ≠ [] := by
      intro hnil
      exact hws (List.dropWhile_eq_nil_iff.mp hnil c hc)
    have h1 := List.head?_dropWhile_not isWhiteSpace s
    cases hd : s.dropWhile isWhiteSpace with
    | nil => exact hne hd
    | cons x u =>
      rw [hd] at h1 h
      simp only [List.head?_cons] at h1
      have := h x (by simp)
      simp [h1] at this
  · intro h c hc
    exact h c ((List.dropWhile_sublist _).subset hc)

namespace AdminDashboard

/-- The behaviour C15 describes, on names with at least one non-whitespace code unit: the
account a successful signup appends has a non-empty full name without leading or trailing
whitespace. -/
theorem signup_fullName_trimmed (env : Env) (st : Storage) (newId : JSString) (now : Nat)
    (fullName email password : JSString)
    (h : (signup env st newId now fullName email password).1.success = true) :
    ∃ admins newAdmin, getAdmins st = .ok admins ∧
      getAdmins (signup env st newId now fullName email password).2
        = .ok (admins ++ [newAdmin]) ∧
      newAdmin.fullName = trim fullName ∧
      (∀ c, newAdmin.fullName.head? = some c → isWhiteSpace c = false) ∧
      (∀ c, newAdmin.fullName.getLast? = some c → isWhiteSpace c = false) ∧
      ((∃ c ∈ fullName, isWhiteSpace c = false) → newAdmin.fullName ≠ []) := by
  obtain ⟨admins, hst, heq⟩ := signup_success_storage env st newId now fullName email password h
  refine ⟨admins, _, hst, by rw [heq]; rfl, rfl, ?_, ?_, ?_⟩
  · exact trim_head_not_whiteSpace fullName
  · exact trim_getLast_not_whiteSpace fullName
  · rintro ⟨c, hc, hws⟩ hnil
    have := (trim_eq_nil_iff fullName).mp hnil c hc
    simp [hws] at this

set_option maxRecDepth 100000 in
/-- C15 (the code at the failing input): `signup` accepts the full name of three spaces and
stores an account whose `fullName` is empty. -/
theorem signup_blank_fullName_stored :
    signup fileEnv ⟨none, none⟩ (js "id1") 5 (js "   ") (js "a@b.com") (js "secret1") =
      ({ success := true, message := "Account created successfully!", admin := none },
       ⟨some (.accounts [⟨js "id1", [], js "a@b.com", fallbackHash (js "secret1"), 5⟩]),
        none⟩) := by
  decide

set_option maxRecDepth 100000 in
/-- C18: `AaAaAa` and `BBBBBB` are distinct passwords of six code units with the same
fallback digest; without `crypto.subtle`, after a signup with the first one the login with
the second one succeeds. -/
theorem fallback_collision_login :
    js "AaAaAa" ≠ js "BBBBBB" ∧ 6 ≤ (js "AaAaAa").length ∧ 6 ≤ (js "BBBBBB").length ∧
    fallbackHash (js "AaAaAa") = fallbackHash (js "BBBBBB") ∧
    hashPassword fileEnv (js "AaAaAa") = hashPassword fileEnv (js "BBBBBB") ∧
    (signup fileEnv ⟨none, none⟩ (js "id1") 5 (js "Al") (js "a@b.com")
        (js "AaAaAa")).1.success = true ∧
    (login fileEnv
        (signup fileEnv ⟨none, none⟩ (js "id1") 5 (js "Al") (js "a@b.com") (js "AaAaAa")).2
        (js "tok") 7 (js "a@b.com") (js "BBBBBB")).1 =
      { success := true, message := "Login successful!",
        admin := some { id := js "id1", fullName := js "Al", email := js "a@b.com" } } := by
  decide

end AdminDashboard

/-! ## The fallback checksum as a polynomial -/

theorem toInt32_mod (x : Int) : (toInt32 x - x) % 4294967296 = 0 := by
  unfold toInt32
  omega

theorem toInt32_toInt32_mul_add (x : Int) (c : Nat) :
    toInt32 (toInt32 x * 31 + (c : Int)) = toInt32 (x * 31 + (c : Int)) := by
  unfold toInt32
  omega

theorem foldl_hashStep_eq (p : JSString) :
    ∀ x : Int, p.foldl AdminDashboard.hashStep (toInt32 x)
      = toInt32 (x * 31 ^ p.length + polySum p) := by
  induction p with
  | nil => intro x; simp [polySum]
  | cons c cs ih =>
    intro x
    rw [List.foldl_cons, hashStep_eq, toInt32_toInt32_mul_add, ih]
    congr 1
    simp only [polySum, List.length_cons, pow_succ]
    ring

theorem fallbackLoop_eq_polySum (p : JSString) :
    AdminDashboard.fallbackLoop p = toInt32 (polySum p) := by
  have h := foldl_hashStep_eq p 0
  have h0 : toInt32 0 = 0 := by decide
  rw [h0] at h
  simpa [AdminDashboard.fallbackLoop] using h

theorem hexValue_hexDigit (d : Nat) (h : d < 16) : hexValue (hexDigit d) = d := by
  unfold hexValue hexDigit
  split <;> split <;> omega

theorem foldl_toString16Aux (fuel : Nat) :
    ∀ (n : Nat) (acc : JSString), n < fuel →
      (toString16Aux fuel n acc).foldl (fun a c => a * 16 + hexValue c) 0
        = acc.foldl (fun a c => a * 16 + hexValue c) n := by
  induction fuel with
  | zero => intro n acc h; omega
  | succ fuel ih =>
    intro n acc hfuel
    have hd := hexValue_hexDigit (n % 16) (Nat.mod_lt _ (by decide))
    unfold toString16Aux
    split
    · rename_i hdiv
      simp only [List.foldl_cons, hd]
      congr 1
      omega
    · rename_i hdiv
      rw [ih (n / 16) _ (by omega)]
      simp only [List.foldl_cons, hd]
      congr 1
      omega

/-- `toString16` writes the number it is given: reading the digits back yields it. -/
theorem ofHex_toString16 (n : Nat) : ofHex (toString16 n) = n := by
  unfold ofHex toString16
  rw [foldl_toString16Aux (n + 1) n [] (by omega)]
  rfl

theorem ofHex_padStart (t : Nat) (s : JSString) : ofHex (padStart t 48 s) = ofHex s := by
  unfold ofHex padStart
  rw [List.foldl_append]
  congr 1
  induction (t - s.length) with
  | zero => rfl
  | succ k ih =>
    rw [List.replicate_succ, List.foldl_cons]
    simpa [hexValue] using ih

/-- C19: the fallback loop computes the signed 32-bit wrap of the polynomial
`c_0 * 31^(n-1) + ... + c_(n-1)` of the code units (each step is `hash*31 + charCode`
wrapped, and the wrap is congruent modulo 2^32 and lies in `[-2^31, 2^31)`); the digest is the
hexadecimal rendering of the absolute value of that number, which is at most 2^31 and takes at
most 8 digits, left-padded with `'0'` to 64 code units. -/
theorem fallbackHash_polynomial (p : JSString) :
    AdminDashboard.fallbackLoop p = toInt32 (polySum p) ∧
    (∀ (hash : Int) (c : Nat),
      AdminDashboard.hashStep hash c = toInt32 (hash * 31 + (c : Int))) ∧
    (toInt32 (polySum p) - polySum p) % 4294967296 = 0 ∧
    -2147483648 ≤ toInt32 (polySum p) ∧ toInt32 (polySum p) < 2147483648 ∧
    AdminDashboard.fallbackHash p
      = padStart 64 48 (toString16 (toInt32 (polySum p)).natAbs) ∧
    (toInt32 (polySum p)).natAbs ≤ 2147483648 ∧
    (toString16 (toInt32 (polySum p)).natAbs).length ≤ 8 ∧
    ofHex (toString16 (toInt32 (polySum p)).natAbs) = (toInt32 (polySum p)).natAbs ∧
    (AdminDashboard.fallbackHash p).length = 64 ∧
    ofHex (AdminDashboard.fallbackHash p) = (toInt32 (polySum p)).natAbs := by
  have hloop := fallbackLoop_eq_polySum p
  have hrange := toInt32_range (polySum p)
  have habs := toInt32_natAbs_le (polySum p)
  have hlen := (toString16_length_le (toInt32 (polySum p)).natAbs 8 (by decide)
    (by have : (16 : Nat) ^ 8 = 4294967296 := by norm_num
        omega)).2
  refine ⟨hloop, hashStep_eq, toInt32_mod _, hrange.1, hrange.2, ?_, habs, hlen,
    ofHex_toString16 _, fallbackHash_length p, ?_⟩
  · simp only [AdminDashboard.fallbackHash, hloop]
  · simp only [AdminDashboard.fallbackHash, hloop, ofHex_padStart, ofHex_toString16]

/-! ## The e-mail pattern, in full -/

/-- C20: the pattern used by `Validator.validateEmail` and by admin `signup` accepts `s`
exactly when `s` contains no whitespace, has exactly one `@` (one occurrence, none before it
and none after it) with at least one code unit before it, and the part after the `@` contains
a `.` that is neither its first nor its last code unit; `signup` with non-empty fields
answers `Invalid email format` exactly when the pattern rejects the email. -/
theorem emailRegex_accepts_iff (s : JSString) :
    (matchItems emailRegex s = true ↔
      (∀ c ∈ s, isWhiteSpace c = false) ∧
        ∃ pre post, s = pre ++ 64 :: post ∧ 64 ∉ pre ∧ 64 ∉ post ∧ pre ≠ [] ∧
          ∃ D T, post = D ++ 46 :: T ∧ D ≠ [] ∧ T ≠ []) ∧
    Validator.validateEmail s = matchItems emailRegex s ∧
    (∀ (env : Env) (st : AdminDashboard.Storage) (newId : JSString) (now : Nat)
        (fullName password : JSString), fullName ≠ [] → s ≠ [] → password ≠ [] →
      ((AdminDashboard.signup env st newId now fullName s password).1.message
          = "Invalid email format" ↔ matchItems emailRegex s = false)) := by
  refine ⟨?_, rfl, ?_⟩
  · have hparts := validateEmail_iff_parts s
    unfold Validator.validateEmail at hparts
    rw [hparts]
    constructor
    · rintro ⟨L, D, T, rfl, hL, hD, hT, hLall, hDall, hTall⟩
      have nm : ∀ l : JSString, (∀ c ∈ l, notSpaceAt c = true) → 64 ∉ l :=
        fun l hl hmem => ((notSpaceAt_iff 64).mp (hl 64 hmem)).2 rfl
      refine ⟨?_, L, D ++ 46 :: T, rfl, nm L hLall, ?_, hL, D, T, rfl, hD, hT⟩
      · intro c hc
        simp only [List.mem_append, List.mem_cons] at hc
        rcases hc with h | rfl | h | rfl | h
        · exact ((notSpaceAt_iff c).mp (hLall c h)).1
        · decide
        · exact ((notSpaceAt_iff c).mp (hDall c h)).1
        · decide
        · exact ((notSpaceAt_iff c).mp (hTall c h)).1
      · intro hmem
        simp only [List.mem_append, List.mem_cons] at hmem
        rcases hmem with h | h | h
        · exact nm D hDall h
        · exact absurd h (by decide)
        · exact nm T hTall h
    · rintro ⟨hws, L, R, rfl, hnL, hnR, hL, D, T, rfl, hD, hT⟩
      have ok : ∀ l : JSString, 64 ∉ l → (∀ c ∈ l, c ∈ L ++ 64 :: (D ++ 46 :: T)) →
          ∀ c ∈ l, notSpaceAt c = true := by
        intro l hl hsub c hc
        rw [notSpaceAt_iff]
        refine ⟨hws c (hsub c hc), ?_⟩
        rintro rfl
        exact hl hc
      refine ⟨L, D, T, rfl, hL, hD, hT, ok L hnL ?_, ok D ?_ ?_, ok T ?_ ?_⟩
      · intro c hc; simp [hc]
      · intro h; exact hnR (by simp [h])
      · intro c hc; simp [hc]
      · intro h; exact hnR (by simp [h])
      · intro c hc; simp [hc]
  · intro env st newId now fullName password hn he hp
    by_cases hre : matchItems emailRegex s = true
    · simp only [hre, Bool.true_eq_false, iff_false]
      by_cases hlen : password.length < 6
      · simp [AdminDashboard.signup, hn, he, hp, hre, hlen]
      · cases hst : AdminDashboard.getAdmins st with
        | error e => simp [AdminDashboard.signup, hn, he, hp, hre, hlen, hst]
        | ok admins =>
          by_cases hdup : admins.any (fun admin => admin.email = s) = true
          · simp [AdminDashboard.signup, hn, he, hp, hre, hlen, hst, hdup]
          · simp [AdminDashboard.signup, hn, he, hp, hre, hlen, hst, hdup]
    · have hre' : matchItems emailRegex s = false := by simpa using hre
      simp [AdminDashboard.signup, hn, he, hp, hre']

/-- Witness for C20: `signup` on `a@b.com` and on `a@@b.c`. -/
theorem emailRegex_accepts_iff_witness :
    (AdminDashboard.signup fileEnv ⟨none, none⟩ (js "id1") 5 (js "Al") (js "a@@b.c")
        (js "secret1")).1.message = "Invalid email format" ∧
    ¬ (AdminDashboard.signup fileEnv ⟨none, none⟩ (js "id1") 5 (js "Al") (js "a@b.com")
        (js "secret1")).1.message = "Invalid email format" :=
  ⟨((emailRegex_accepts_iff (js "a@@b.c")).2.2 fileEnv ⟨none, none⟩ (js "id1") 5 (js "Al")
      (js "secret1") (by decide) (by decide) (by decide)).mpr (by decide),
   fun h => absurd (((emailRegex_accepts_iff (js "a@b.com")).2.2 fileEnv ⟨none, none⟩
      (js "id1") 5 (js "Al") (js "secret1") (by decide) (by decide) (by decide)).mp h)
      (by decide)⟩
